import Mathlib

/-!
# Verification of the Citus per-placement connection manager

A shallow embedding of `src/backend/distributed/connection/placement_connection.c`.

Pointers are modelled by identifiers into association lists held in a single
state record `PCState`:
* `ConnectionReference *` becomes a `Nat` index (`rid`) into `PCState.refs`,
  so that a reference shared by a `ConnectionPlacementHashEntry` and a
  `ColocatedPlacementsHashEntry` is literally the same mutable cell;
* `MultiConnection *` becomes a `Nat` connection id; the connection pool and
  the per-connection flags (`claimedExclusively`,
  `remoteTransaction.transactionFailed`) live in an environment `PoolEnv`;
* the three hash tables `ConnectionPlacementHash`, `ColocatedPlacementsHash`
  and `ConnectionShardHash` become association lists keyed the same way as in
  the source.

`ereport(ERROR, ...)` inside `StartPlacementListConnection` becomes an error
result that also carries the state at the point of the error (hash-table
entries created before the error remain, as in the source).
-/

set_option maxRecDepth 4000

namespace PlacementConnection

/-! ## Association-list helpers (model of `hash_search`) -/

/-- First-match lookup in an association list. -/
def assocFind {α β : Type} [DecidableEq α] (k : α) : List (α × β) → Option β
  | [] => Option.none
  | (k', v) :: rest => if k' = k then Option.some v else assocFind k rest

/-- Update the first entry with key `k`, or append a new one. -/
def assocSet {α β : Type} [DecidableEq α] (k : α) (v : β) : List (α × β) → List (α × β)
  | [] => [(k, v)]
  | (k', v') :: rest => if k' = k then (k, v) :: rest else (k', v') :: assocSet k v rest

/-! ## Data model -/

/-- `ShardPlacementAccessType` (PLACEMENT_ACCESS_SELECT / DML / DDL). -/
inductive ShardPlacementAccessType : Type
  | select
  | dml
  | ddl
deriving DecidableEq

/-- Partition method of the table a placement belongs to
(`DISTRIBUTE_BY_HASH`, `DISTRIBUTE_BY_NONE`, `DISTRIBUTE_BY_RANGE`,
`DISTRIBUTE_BY_APPEND`). -/
inductive PartitionMethod : Type
  | byHash
  | byNone
  | byRange
  | byAppend
deriving DecidableEq

/-- The fields of `ShardPlacement` used by placement_connection.c. -/
structure ShardPlacement where
  placementId : Nat
  shardId : Nat
  nodeName : String
  nodePort : Nat
  partitionMethod : PartitionMethod
  colocationGroupId : Nat
  representativeValue : Nat
deriving DecidableEq

/-- `INVALID_SHARD_ID`: sentinel shard id of the dummy placement used when a
SELECT prunes down to zero shards. -/
def INVALID_SHARD_ID : Nat := 0

/-- `ShardPlacementAccess`: a placement together with the intended access. -/
structure ShardPlacementAccess where
  placement : ShardPlacement
  accessType : ShardPlacementAccessType
deriving DecidableEq

/-- `ConnectionReference`: the central mutable record.  `connection = none`
models a NULL `MultiConnection *`.  (The intrusive `connectionNode` dlist
membership is modelled by `PCState.referencedPlacements`.) -/
structure ConnectionReference where
  userName : String
  connection : Option Nat
  hadDML : Bool
  hadDDL : Bool
deriving DecidableEq

/-- The all-zero `ConnectionReference` produced by `MemoryContextAllocZero`. -/
def zeroConnectionReference : ConnectionReference :=
  { userName := "", connection := Option.none, hadDML := false, hadDDL := false }

/-- `ColocatedPlacementsHashKey`: (nodeName, nodePort, colocationGroupId,
representativeValue). -/
structure ColocatedPlacementsHashKey where
  nodeName : String
  nodePort : Nat
  colocationGroupId : Nat
  representativeValue : Nat
deriving DecidableEq

/-- `ConnectionPlacementHashEntry` (the key `placementId` is the assoc-list
key; `primaryConnection` is a reference id into `PCState.refs`). -/
structure ConnectionPlacementHashEntry where
  failed : Bool
  primaryConnection : Nat
  hasSecondaryConnections : Bool
  colocatedEntry : Option ColocatedPlacementsHashKey
deriving DecidableEq

/-- `ColocatedPlacementsHashEntry`. -/
structure ColocatedPlacementsHashEntry where
  primaryConnection : Nat
  hasSecondaryConnections : Bool
deriving DecidableEq

/-- The whole mutable state of placement_connection.c:
the three hash tables, the store of `ConnectionReference` cells, and each
connection's `referencedPlacements` intrusive list. -/
structure PCState where
  refs : List (Nat × ConnectionReference)
  nextRef : Nat
  connectionPlacementHash : List (Nat × ConnectionPlacementHashEntry)
  colocatedPlacementsHash : List (ColocatedPlacementsHashKey × ColocatedPlacementsHashEntry)
  connectionShardHash : List (Nat × List Nat)
  referencedPlacements : List (Nat × List Nat)
deriving DecidableEq

/-- The empty state (fresh transaction). -/
def emptyPCState : PCState :=
  { refs := [], nextRef := 0, connectionPlacementHash := [],
    colocatedPlacementsHash := [], connectionShardHash := [],
    referencedPlacements := [] }

/-- Dereference a `ConnectionReference *`.  Dangling ids (never produced by
the modelled code) read as the all-zero reference. -/
def getRefD (st : PCState) (rid : Nat) : ConnectionReference :=
  (assocFind rid st.refs).getD zeroConnectionReference

/-- Write through a `ConnectionReference *`. -/
def setRef (st : PCState) (rid : Nat) (r : ConnectionReference) : PCState :=
  { st with refs := assocSet rid r st.refs }

/-- Dereference a `ConnectionPlacementHashEntry` by placement id. -/
def getEntryD (st : PCState) (placementId : Nat) : ConnectionPlacementHashEntry :=
  (assocFind placementId st.connectionPlacementHash).getD
    { failed := false, primaryConnection := 0, hasSecondaryConnections := false,
      colocatedEntry := Option.none }

/-- Write a `ConnectionPlacementHashEntry`. -/
def setEntry (st : PCState) (placementId : Nat) (e : ConnectionPlacementHashEntry) : PCState :=
  { st with connectionPlacementHash := assocSet placementId e st.connectionPlacementHash }

/-- Dereference a `ColocatedPlacementsHashEntry`. -/
def getColocD (st : PCState) (k : ColocatedPlacementsHashKey) : ColocatedPlacementsHashEntry :=
  (assocFind k st.colocatedPlacementsHash).getD
    { primaryConnection := 0, hasSecondaryConnections := false }

/-- Write a `ColocatedPlacementsHashEntry`. -/
def setColoc (st : PCState) (k : ColocatedPlacementsHashKey) (e : ColocatedPlacementsHashEntry) :
    PCState :=
  { st with colocatedPlacementsHash := assocSet k e st.colocatedPlacementsHash }

/-- `dlist_push_tail(&connection->referencedPlacements, &ref->connectionNode)`. -/
def pushReferenced (st : PCState) (connection rid : Nat) : PCState :=
  let l := (assocFind connection st.referencedPlacements).getD []
  { st with referencedPlacements := assocSet connection (l ++ [rid]) st.referencedPlacements }

/-! ## External environment -/

/-- Connection flags.  Of the 32-bit mask the core itself only tests
`FORCE_NEW_CONNECTION`; the rest is forwarded to the pool unchanged
(absorbed into `PoolEnv.startNodeConnection`). -/
structure ConnFlags where
  forceNewConnection : Bool
deriving DecidableEq

/-- The pool / session environment: the current user, which connections are
claimed exclusively, which remote transactions have failed, and what
`StartNodeConnection` returns for a given (flags, nodeName, nodePort). -/
structure PoolEnv where
  currentUserName : String
  claimedExclusively : List Nat
  transactionFailed : List Nat
  startNodeConnection : ConnFlags → String → Nat → Nat

/-- Shard placement states from the catalog (`FILE_FINALIZED` etc.). -/
inductive ShardState : Type
  | fileFinalized
  | fileCached
  | fileInactive
  | fileToDelete
deriving DecidableEq

/-! ## FindOrCreatePlacementEntry -/

/-- `AssociatePlacementWithShard`: record the shard → placement-entry
association in `ConnectionShardHash` (appending once, keyed by shard id). -/
def AssociatePlacementWithShard (placementId shardId : Nat) (st : PCState) : PCState :=
  match assocFind shardId st.connectionShardHash with
  | Option.none =>
      { st with connectionShardHash :=
          st.connectionShardHash ++ [(shardId, [placementId])] }
  | Option.some pids =>
      if placementId ∈ pids then st
      else
        { st with connectionShardHash :=
            assocSet shardId (pids ++ [placementId]) st.connectionShardHash }

/-- `FindOrCreatePlacementEntry`: look the placement up in
`ConnectionPlacementHash`; on a miss create the entry, sharing the
`ConnectionReference` with the colocated-placements entry for
hash/reference-table placements, and finally associate it with its shard. -/
def FindOrCreatePlacementEntry (placement : ShardPlacement) (st : PCState) :
    ConnectionPlacementHashEntry × PCState :=
  match assocFind placement.placementId st.connectionPlacementHash with
  | Option.some placementEntry =>
      (placementEntry,
        AssociatePlacementWithShard placement.placementId placement.shardId st)
  | Option.none =>
    if placement.partitionMethod = PartitionMethod.byHash ∨
        placement.partitionMethod = PartitionMethod.byNone then
      let key : ColocatedPlacementsHashKey :=
        { nodeName := placement.nodeName, nodePort := placement.nodePort,
          colocationGroupId := placement.colocationGroupId,
          representativeValue := placement.representativeValue }
      match assocFind key st.colocatedPlacementsHash with
      | Option.some colocatedEntry =>
          let placementEntry : ConnectionPlacementHashEntry :=
            { failed := false, primaryConnection := colocatedEntry.primaryConnection,
              hasSecondaryConnections := false, colocatedEntry := Option.some key }
          let st1 :=
            { st with connectionPlacementHash :=
                st.connectionPlacementHash ++ [(placement.placementId, placementEntry)] }
          (placementEntry,
            AssociatePlacementWithShard placement.placementId placement.shardId st1)
      | Option.none =>
          let rid := st.nextRef
          let st0 :=
            { st with refs := st.refs ++ [(rid, zeroConnectionReference)],
                      nextRef := st.nextRef + 1 }
          let colocatedEntry : ColocatedPlacementsHashEntry :=
            { primaryConnection := rid, hasSecondaryConnections := false }
          let placementEntry : ConnectionPlacementHashEntry :=
            { failed := false, primaryConnection := rid,
              hasSecondaryConnections := false, colocatedEntry := Option.some key }
          let st1 :=
            { st0 with
                colocatedPlacementsHash :=
                  st0.colocatedPlacementsHash ++ [(key, colocatedEntry)],
                connectionPlacementHash :=
                  st0.connectionPlacementHash ++ [(placement.placementId, placementEntry)] }
          (placementEntry,
            AssociatePlacementWithShard placement.placementId placement.shardId st1)
    else
      let rid := st.nextRef
      let st0 :=
        { st with refs := st.refs ++ [(rid, zeroConnectionReference)],
                  nextRef := st.nextRef + 1 }
      let placementEntry : ConnectionPlacementHashEntry :=
        { failed := false, primaryConnection := rid,
          hasSecondaryConnections := false, colocatedEntry := Option.none }
      let st1 :=
        { st0 with connectionPlacementHash :=
            st0.connectionPlacementHash ++ [(placement.placementId, placementEntry)] }
      (placementEntry,
        AssociatePlacementWithShard placement.placementId placement.shardId st1)

/-! ## CanUseExistingConnection -/

/-- `CanUseExistingConnection`: an existing connection is reusable iff it is
open, not claimed exclusively, reuse is not forbidden by
`FORCE_NEW_CONNECTION`, and it belongs to the same user. -/
def CanUseExistingConnection (env : PoolEnv) (flags : ConnFlags) (userName : String)
    (connectionReference : ConnectionReference) : Bool :=
  match connectionReference.connection with
  | Option.none => false
  | Option.some connection =>
    if connection ∈ env.claimedExclusively then false
    else if flags.forceNewConnection then false
    else if connectionReference.userName ≠ userName then false
    else true

/-! ## StartPlacementListConnection -/

/-- The typed errors `StartPlacementListConnection` can raise
(each corresponds to one `ereport(ERROR, ...)` site). -/
inductive PlacementConnErr : Type
  | ddlOnSecondaryRead (placementId : Nat)
  | ddlOnColocatedSecondaryRead (placementId : Nat)
  | multiConnectionWrite
  | newConnOverDdl (placementId : Nat)
  | newConnOverDml (placementId : Nat)
  | parallelDdl
deriving DecidableEq

/-- Accumulator of the selection pass: the candidate connection, the
`foundModifyingConnection` flag, the `placementEntryList` built by
`lappend` (as placement ids), and the evolving state. -/
structure SelAcc where
  chosen : Option Nat
  foundModifying : Bool
  entryList : List Nat
  st : PCState
deriving DecidableEq

/-- Result of the selection pass; errors carry the state at the point of the
`ereport` (entries created earlier in the pass remain). -/
inductive SelResult : Type
  | ok (acc : SelAcc)
  | err (e : PlacementConnErr) (st : PCState)
deriving DecidableEq

/-- One iteration of the first (selection) loop of
`StartPlacementListConnection`: skip dummy placements, find or create the
entry, then apply the rule chain R1–R9. -/
def selStep (env : PoolEnv) (flags : ConnFlags) (userName : String)
    (pa : ShardPlacementAccess) (acc : SelAcc) : SelResult :=
  if pa.placement.shardId = INVALID_SHARD_ID then
    SelResult.ok acc
  else
    let fr := FindOrCreatePlacementEntry pa.placement acc.st
    let placementEntry := fr.1
    let st := fr.2
    let colocatedHasSecondary :=
      match placementEntry.colocatedEntry with
      | Option.none => false
      | Option.some k => (getColocD st k).hasSecondaryConnections
    let placementConnection := getRefD st placementEntry.primaryConnection
    let pass : SelResult :=
      SelResult.ok { acc with
                      st := st
                      entryList := acc.entryList ++ [pa.placement.placementId] }
    match placementConnection.connection with
    | Option.none =>
        /- no connection has been chosen for the placement -/
        pass
    | Option.some conn =>
      if pa.accessType = ShardPlacementAccessType.ddl ∧
          placementEntry.hasSecondaryConnections = true then
        SelResult.err (PlacementConnErr.ddlOnSecondaryRead pa.placement.placementId) st
      else if pa.accessType = ShardPlacementAccessType.ddl ∧
          colocatedHasSecondary = true then
        SelResult.err
          (PlacementConnErr.ddlOnColocatedSecondaryRead pa.placement.placementId) st
      else if acc.foundModifying = true then
        if (placementConnection.hadDDL = true ∨ placementConnection.hadDML = true) ∧
            Option.some conn ≠ acc.chosen then
          SelResult.err PlacementConnErr.multiConnectionWrite st
        else
          pass
      else if CanUseExistingConnection env flags userName placementConnection = true then
        SelResult.ok
          { chosen := Option.some conn
            foundModifying := placementConnection.hadDDL || placementConnection.hadDML
            entryList := acc.entryList ++ [pa.placement.placementId]
            st := st }
      else if placementConnection.hadDDL = true then
        SelResult.err (PlacementConnErr.newConnOverDdl pa.placement.placementId) st
      else if placementConnection.hadDML = true then
        SelResult.err (PlacementConnErr.newConnOverDml pa.placement.placementId) st
      else if pa.accessType = ShardPlacementAccessType.ddl then
        SelResult.err PlacementConnErr.parallelDdl st
      else
        /- previous read via a different, now-claimed connection is tolerable -/
        pass

/-- The selection pass: fold `selStep` over the access list, stopping at the
first error. -/
def selectionPass (env : PoolEnv) (flags : ConnFlags) (userName : String) :
    List ShardPlacementAccess → SelAcc → SelResult
  | [], acc => SelResult.ok acc
  | pa :: rest, acc =>
    match selStep env flags userName pa acc with
    | SelResult.ok acc' => selectionPass env flags userName rest acc'
    | SelResult.err e st => SelResult.err e st

/-- One iteration of the second (installation) loop of
`StartPlacementListConnection`, for one (access, placement-entry) pair
produced by `forboth`. -/
def installStep (userName : String) (chosenConnection : Nat)
    (pr : ShardPlacementAccess × Nat) (st : PCState) : PCState :=
  let accessType := pr.1.accessType
  let pid := pr.2
  let placementEntry := getEntryD st pid
  let rid := placementEntry.primaryConnection
  let placementConnection := getRefD st rid
  let st1 :=
    if placementConnection.connection = Option.some chosenConnection then
      /- using the connection that was already assigned to the placement -/
      st
    else if placementConnection.connection = Option.none then
      /- placement does not have a connection assigned yet -/
      let stA := setRef st rid
        { placementConnection with
            connection := Option.some chosenConnection,
            hadDDL := false, hadDML := false, userName := userName }
      pushReferenced stA chosenConnection rid
    else
      /- using a different connection than the one assigned to the placement -/
      let stW :=
        if accessType ≠ ShardPlacementAccessType.select then
          setRef st rid
            { placementConnection with
                connection := Option.some chosenConnection, userName := userName }
        else st
      let stS := setEntry stW pid
        { (getEntryD stW pid) with hasSecondaryConnections := true }
      match placementEntry.colocatedEntry with
      | Option.none => stS
      | Option.some k =>
          setColoc stS k { (getColocD stS k) with hasSecondaryConnections := true }
  let ref1 := getRefD st1 rid
  let st2 :=
    if accessType = ShardPlacementAccessType.ddl then
      setRef st1 rid { ref1 with hadDDL := true }
    else st1
  let ref2 := getRefD st2 rid
  if accessType = ShardPlacementAccessType.dml then
    setRef st2 rid { ref2 with hadDML := true }
  else st2

/-- The installation pass (`forboth` pairs the full access list with the
entry list built by the selection pass, stopping at the shorter). -/
def installPass (userName : String) (chosenConnection : Nat) :
    List (ShardPlacementAccess × Nat) → PCState → PCState
  | [], st => st
  | pr :: rest, st =>
      installPass userName chosenConnection rest
        (installStep userName chosenConnection pr st)

/-- Result of `StartPlacementListConnection`: the chosen connection and the
updated state, or the error together with the state at the `ereport`. -/
inductive AcquireResult : Type
  | ok (conn : Nat) (st : PCState)
  | err (e : PlacementConnErr) (st : PCState)
deriving DecidableEq

/-- `StartPlacementListConnection(flags, placementAccessList, userName)`:
the selection pass computes a candidate connection; if none was found a new
connection is started to the node of the *first* access in the list; the
installation pass then records the chosen connection on every paired
placement entry. -/
def StartPlacementListConnection (env : PoolEnv) (flags : ConnFlags)
    (placementAccessList : List ShardPlacementAccess) (userNameOpt : Option String)
    (st : PCState) : AcquireResult :=
  let userName := userNameOpt.getD env.currentUserName
  match selectionPass env flags userName placementAccessList
      { chosen := Option.none, foundModifying := false, entryList := [], st := st } with
  | SelResult.err e st1 => AcquireResult.err e st1
  | SelResult.ok acc =>
    let chosenConnection :=
      match acc.chosen with
      | Option.some c => c
      | Option.none =>
        match placementAccessList with
        | [] => env.startNodeConnection flags "" 0
        | pa :: _ =>
            env.startNodeConnection flags pa.placement.nodeName pa.placement.nodePort
    let st2 := installPass userName chosenConnection
      (placementAccessList.zip acc.entryList) acc.st
    AcquireResult.ok chosenConnection st2

/-- Accumulator of a selection-pass result (dummy accumulator on error). -/
def selAccOf : SelResult → SelAcc
  | SelResult.ok a => a
  | SelResult.err _ st =>
      { chosen := Option.none, foundModifying := false, entryList := [], st := st }

/-- Chosen connection of a successful acquire. -/
def resultConn : AcquireResult → Option Nat
  | AcquireResult.ok c _ => Option.some c
  | AcquireResult.err _ _ => Option.none

/-- Error of a failed acquire. -/
def resultErr : AcquireResult → Option PlacementConnErr
  | AcquireResult.ok _ _ => Option.none
  | AcquireResult.err e _ => Option.some e

/-- Final state of an acquire (on error: the state at the `ereport`). -/
def resultState : AcquireResult → PCState
  | AcquireResult.ok _ st => st
  | AcquireResult.err _ st => st

/-! ## Connection closure callback -/

/-- Clear `connection` in each listed reference cell. -/
def closeRefs : List Nat → PCState → PCState
  | [], st => st
  | rid :: rest, st =>
      closeRefs rest
        (setRef st rid { getRefD st rid with connection := Option.none })

/-- `CloseShardPlacementAssociation`: when the pool closes a connection
mid-transaction, set `connection = NULL` in every `ConnectionReference` on
its `referencedPlacements` list, leaving `hadDML`/`hadDDL` intact. -/
def CloseShardPlacementAssociation (connection : Nat) (st : PCState) : PCState :=
  closeRefs ((assocFind connection st.referencedPlacements).getD []) st

/-! ## Commit-time classification -/

/-- First loop of `CheckShardPlacements`: count failures/successes over the
modified placements of the shard, marking failed entries. -/
def checkLoop1 (env : PoolEnv) :
    List Nat → PCState → Nat → Nat → Nat × Nat × PCState
  | [], st, failures, successes => (failures, successes, st)
  | pid :: rest, st, failures, successes =>
    let placementEntry := getEntryD st pid
    let primaryConnection := getRefD st placementEntry.primaryConnection
    if primaryConnection.hadDDL = true ∨ primaryConnection.hadDML = true then
      match primaryConnection.connection with
      | Option.none =>
          checkLoop1 env rest (setEntry st pid { placementEntry with failed := true })
            (failures + 1) successes
      | Option.some connection =>
          if connection ∈ env.transactionFailed then
            checkLoop1 env rest (setEntry st pid { placementEntry with failed := true })
              (failures + 1) successes
          else
            checkLoop1 env rest st failures (successes + 1)
    else
      /- we only consider shards that are modified -/
      checkLoop1 env rest st failures successes

/-- Second loop of `CheckShardPlacements`: for each failed entry whose
catalog state is `FILE_FINALIZED`, emit an
`UpdateShardPlacementState(placementId, FILE_INACTIVE)` call. -/
def checkLoop2 (catalog : Nat → Nat → ShardState) (shardId : Nat) :
    List Nat → PCState → List (Nat × ShardState)
  | [], _ => []
  | pid :: rest, st =>
    if (getEntryD st pid).failed = true then
      (if catalog shardId pid = ShardState.fileFinalized then
        [(pid, ShardState.fileInactive)]
      else []) ++ checkLoop2 catalog shardId rest st
    else
      checkLoop2 catalog shardId rest st

/-- `CheckShardPlacements`: classify the placements of one shard; returns
`false` iff there were failures and no success, otherwise `true` together
with the updated state and the catalog updates performed. -/
def CheckShardPlacements (env : PoolEnv) (catalog : Nat → Nat → ShardState)
    (shardId : Nat) (st : PCState) : Bool × PCState × List (Nat × ShardState) :=
  let pids := (assocFind shardId st.connectionShardHash).getD []
  let r1 := checkLoop1 env pids st 0 0
  let failures := r1.1
  let successes := r1.2.1
  let st1 := r1.2.2
  if failures > 0 ∧ successes = 0 then
    (false, st1, [])
  else
    (true, st1, checkLoop2 catalog shardId pids st1)

/-- Commit-time errors. -/
inductive CommitError : Type
  | shardModifyFailed (shardId : Nat)
  | shardCommitFailed (shardId : Nat)
  | noShardCommitted
deriving DecidableEq

/-- Loop of `MarkFailedShardPlacements` over the shard hash. -/
def markLoop (env : PoolEnv) (catalog : Nat → Nat → ShardState) :
    List (Nat × List Nat) → PCState → List (Nat × ShardState) →
    Except CommitError (PCState × List (Nat × ShardState))
  | [], st, actions => Except.ok (st, actions)
  | (shardId, _) :: rest, st, actions =>
    let r := CheckShardPlacements env catalog shardId st
    if r.1 = true then
      markLoop env catalog rest r.2.1 (actions ++ r.2.2)
    else
      Except.error (CommitError.shardModifyFailed shardId)

/-- `MarkFailedShardPlacements` (pre-commit form): walk every shard entry;
a shard whose modified placements all failed raises
`could not make changes to shard ... on any node`. -/
def MarkFailedShardPlacements (env : PoolEnv) (catalog : Nat → Nat → ShardState)
    (st : PCState) : Except CommitError (PCState × List (Nat × ShardState)) :=
  markLoop env catalog st.connectionShardHash st []

/-- Successful outcome of `PostCommitMarkFailedShardPlacements`: final state,
catalog updates, and the shards warned about (when not using 2PC). -/
structure PostCommitOk where
  st : PCState
  actions : List (Nat × ShardState)
  warnings : List Nat
deriving DecidableEq

/-- Loop of `PostCommitMarkFailedShardPlacements`. -/
def postLoop (env : PoolEnv) (catalog : Nat → Nat → ShardState) (using2PC : Bool) :
    List (Nat × List Nat) → PCState → Nat → Nat → List (Nat × ShardState) → List Nat →
    Except CommitError PostCommitOk
  | [], st, attempts, successes, actions, warnings =>
    if attempts > 0 ∧ successes = 0 then
      Except.error CommitError.noShardCommitted
    else
      Except.ok { st := st, actions := actions, warnings := warnings }
  | (shardId, _) :: rest, st, attempts, successes, actions, warnings =>
    let r := CheckShardPlacements env catalog shardId st
    if r.1 = true then
      postLoop env catalog using2PC rest r.2.1 (attempts + 1) (successes + 1)
        (actions ++ r.2.2) warnings
    else if using2PC = true then
      Except.error (CommitError.shardCommitFailed shardId)
    else
      postLoop env catalog using2PC rest r.2.1 (attempts + 1) successes actions
        (warnings ++ [shardId])

/-- `PostCommitMarkFailedShardPlacements(using2PC)`: per-shard failures are
fatal under 2PC and warnings otherwise; if shards were examined and none
succeeded, raise `could not commit transaction on any active node`. -/
def PostCommitMarkFailedShardPlacements (env : PoolEnv)
    (catalog : Nat → Nat → ShardState) (using2PC : Bool) (st : PCState) :
    Except CommitError PostCommitOk :=
  postLoop env catalog using2PC st.connectionShardHash st 0 0 [] []

/-! ## Concrete scenarios

Small concrete placements, environments and acquire sequences used to
evaluate the model on the end-to-end scenarios of the specification. -/

/-- A range-partitioned placement (own connection reference). -/
def placementA : ShardPlacement :=
  { placementId := 1, shardId := 10, nodeName := "node-a", nodePort := 5432,
    partitionMethod := PartitionMethod.byRange, colocationGroupId := 0,
    representativeValue := 0 }

/-- A second, unrelated range-partitioned placement. -/
def placementB : ShardPlacement :=
  { placementId := 2, shardId := 20, nodeName := "node-a", nodePort := 5432,
    partitionMethod := PartitionMethod.byRange, colocationGroupId := 0,
    representativeValue := 0 }

/-- The dummy placement used when a SELECT prunes to zero shards
(`shardId == INVALID_SHARD_ID`), targeting a different node. -/
def sentinelPlacement : ShardPlacement :=
  { placementId := 99, shardId := INVALID_SHARD_ID, nodeName := "node-z",
    nodePort := 9999, partitionMethod := PartitionMethod.byRange,
    colocationGroupId := 0, representativeValue := 0 }

/-- Default flags: connection reuse allowed. -/
def flagsDefault : ConnFlags := { forceNewConnection := false }

/-- Pool environment: user `alice`, the given claimed connections, no failed
remote transactions, and a pool that hands out `fresh` for any node. -/
def envPool (claimed : List Nat) (fresh : Nat) : PoolEnv :=
  { currentUserName := "alice", claimedExclusively := claimed,
    transactionFailed := [], startNodeConnection := fun _ _ _ => fresh }

/-- State after `acquire [(placementA, SELECT)]` on a fresh transaction;
the pool hands out connection 100. -/
def stSelectA : PCState :=
  resultState (StartPlacementListConnection (envPool [] 100) flagsDefault
    [{ placement := placementA, accessType := ShardPlacementAccessType.select }]
    (Option.some "alice") emptyPCState)

/-- Second `acquire [(placementA, SELECT)]` while connection 100 is claimed
exclusively; the pool hands out 101. -/
def acquireSelectA2 : AcquireResult :=
  StartPlacementListConnection (envPool [100] 101) flagsDefault
    [{ placement := placementA, accessType := ShardPlacementAccessType.select }]
    (Option.some "alice") stSelectA

/-- Third acquire: `[(placementA, DML)]` with 100 still claimed; pool hands
out 102. -/
def acquireDmlA3 : AcquireResult :=
  StartPlacementListConnection (envPool [100] 102) flagsDefault
    [{ placement := placementA, accessType := ShardPlacementAccessType.dml }]
    (Option.some "alice") (resultState acquireSelectA2)

/-- State after `acquire [(placementB, DML)]` over fresh connection 200. -/
def stDmlB : PCState :=
  resultState (StartPlacementListConnection (envPool [] 200) flagsDefault
    [{ placement := placementB, accessType := ShardPlacementAccessType.dml }]
    (Option.some "alice") emptyPCState)

/-- The pool closes connection 200 mid-transaction. -/
def stDmlBClosed : PCState := CloseShardPlacementAssociation 200 stDmlB

/-- Subsequent `acquire [(placementB, SELECT)]` after the close; pool hands
out 201. -/
def acquireAfterClose : AcquireResult :=
  StartPlacementListConnection (envPool [] 201) flagsDefault
    [{ placement := placementB, accessType := ShardPlacementAccessType.select }]
    (Option.some "alice") stDmlBClosed

/-- Split-writes scenario, step 1–2: DML on placementA over connection 300,
then (with 300 claimed) DML on placementB over fresh connection 301. -/
def stSplitWrites : PCState :=
  resultState (StartPlacementListConnection (envPool [300] 301) flagsDefault
    [{ placement := placementB, accessType := ShardPlacementAccessType.dml }]
    (Option.some "alice")
    (resultState (StartPlacementListConnection (envPool [] 300) flagsDefault
      [{ placement := placementA, accessType := ShardPlacementAccessType.dml }]
      (Option.some "alice") emptyPCState)))

/-- Split-writes scenario, final acquire as written in the spec: connection
300 is still claimed exclusively. -/
def acquireSplitClaimed : AcquireResult :=
  StartPlacementListConnection (envPool [300] 302) flagsDefault
    [{ placement := placementA, accessType := ShardPlacementAccessType.select },
     { placement := placementB, accessType := ShardPlacementAccessType.select }]
    (Option.some "alice") stSplitWrites

/-- Split-writes scenario, final acquire with connection 300 released. -/
def acquireSplitReleased : AcquireResult :=
  StartPlacementListConnection (envPool [] 302) flagsDefault
    [{ placement := placementA, accessType := ShardPlacementAccessType.select },
     { placement := placementB, accessType := ShardPlacementAccessType.select }]
    (Option.some "alice") stSplitWrites

/-- Pool that hands out connection 400 for node-a and 500 for any other
node, distinguishing which node a fresh connection was requested for. -/
def envNodeSensitive : PoolEnv :=
  { currentUserName := "alice", claimedExclusively := [],
    transactionFailed := [],
    startNodeConnection := fun _ nodeName _ => if nodeName = "node-a" then 400 else 500 }

/-- Acquire whose list starts with a sentinel (DDL) access followed by a
SELECT on placementA. -/
def acquireSentinelFirst : AcquireResult :=
  StartPlacementListConnection envNodeSensitive flagsDefault
    [{ placement := sentinelPlacement, accessType := ShardPlacementAccessType.ddl },
     { placement := placementA, accessType := ShardPlacementAccessType.select }]
    (Option.some "alice") emptyPCState

/-- The same acquire with the sentinel access removed. -/
def acquireNoSentinel : AcquireResult :=
  StartPlacementListConnection envNodeSensitive flagsDefault
    [{ placement := placementA, accessType := ShardPlacementAccessType.select }]
    (Option.some "alice") emptyPCState

/-- State in which placementB has been read over two connections
(hasSecondaryConnections = true): SELECT over 600, claim 600, SELECT again
over fresh 601. -/
def stSecondaryB : PCState :=
  resultState (StartPlacementListConnection (envPool [600] 601) flagsDefault
    [{ placement := placementB, accessType := ShardPlacementAccessType.select }]
    (Option.some "alice")
    (resultState (StartPlacementListConnection (envPool [] 600) flagsDefault
      [{ placement := placementB, accessType := ShardPlacementAccessType.select }]
      (Option.some "alice") emptyPCState)))

/-- Acquire of `[(placementA, SELECT), (placementB, DDL)]` from
`stSecondaryB` (600 still claimed); placementA has never been accessed. -/
def acquireDdlOnSecondary : AcquireResult :=
  StartPlacementListConnection (envPool [600] 602) flagsDefault
    [{ placement := placementA, accessType := ShardPlacementAccessType.select },
     { placement := placementB, accessType := ShardPlacementAccessType.ddl }]
    (Option.some "alice") stSecondaryB

/-- A catalog in which every placement is in state FILE_FINALIZED. -/
def catalogAllFinal : Nat → Nat → ShardState := fun _ _ => ShardState.fileFinalized

/-- Pool environment in which connection 200's remote transaction failed. -/
def envFail : PoolEnv :=
  { currentUserName := "alice", claimedExclusively := [],
    transactionFailed := [200], startNodeConnection := fun _ _ _ => 0 }

/-- First DML acquire on placementA from the empty state, over fresh
connection 300. -/
def acquireDmlA1 : AcquireResult :=
  StartPlacementListConnection (envPool [] 300) flagsDefault
    [{ placement := placementA, accessType := ShardPlacementAccessType.dml }]
    (Option.some "alice") emptyPCState

/-- Reacquire of placementB with SELECT while its DML connection 200 is
still open and reusable. -/
def acquireReuseB : AcquireResult :=
  StartPlacementListConnection (envPool [] 201) flagsDefault
    [{ placement := placementB, accessType := ShardPlacementAccessType.select }]
    (Option.some "alice") stDmlB

/-- A hash-partitioned placement (shares its ConnectionReference with its
colocation group). -/
def placementH1 : ShardPlacement :=
  { placementId := 5, shardId := 50, nodeName := "node-a", nodePort := 5432,
    partitionMethod := PartitionMethod.byHash, colocationGroupId := 7,
    representativeValue := 1000 }

/-- SELECT acquire on the hash-partitioned placementH1 from the empty
state, over fresh connection 700. -/
def acquireHash1 : AcquireResult :=
  StartPlacementListConnection (envPool [] 700) flagsDefault
    [{ placement := placementH1, accessType := ShardPlacementAccessType.select }]
    (Option.some "alice") emptyPCState

/-- Single DDL acquire on placementB from `stSecondaryB` (placementB has
been read over two connections). -/
def acquireDdlOnlyB : AcquireResult :=
  StartPlacementListConnection (envPool [600] 602) flagsDefault
    [{ placement := placementB, accessType := ShardPlacementAccessType.ddl }]
    (Option.some "alice") stSecondaryB

/-- `PCExt st st'`: every placement entry, reference cell and colocated
entry present in `st` is still present, unchanged, in `st'`.  The selection
pass only extends the indices, so it preserves this relation. -/
def PCExt (st st' : PCState) : Prop :=
  (∀ pid e, assocFind pid st.connectionPlacementHash = Option.some e →
      assocFind pid st'.connectionPlacementHash = Option.some e) ∧
  (∀ rid r, assocFind rid st.refs = Option.some r →
      assocFind rid st'.refs = Option.some r) ∧
  (∀ k ce, assocFind k st.colocatedPlacementsHash = Option.some ce →
      assocFind k st'.colocatedPlacementsHash = Option.some ce)

/-- Classification predicate of `CheckShardPlacements` loop 1: a placement
counts only if its primary reference recorded DDL or DML. -/
def isModifiedPlacement (st : PCState) (pid : Nat) : Bool :=
  (getRefD st (getEntryD st pid).primaryConnection).hadDDL ||
  (getRefD st (getEntryD st pid).primaryConnection).hadDML

/-- Classification predicate of `CheckShardPlacements` loop 1: a modified
placement is a failure iff its connection is gone or its remote transaction
failed. -/
def isFailedConnection (env : PoolEnv) (st : PCState) (pid : Nat) : Bool :=
  match (getRefD st (getEntryD st pid).primaryConnection).connection with
  | Option.none => true
  | Option.some c => if c ∈ env.transactionFailed then true else false

/-- `colocShared st`: shared-reference invariant I2 — every placement entry
linked to a colocated entry stores exactly the colocated entry's
`primaryConnection` reference id, i.e. the two indices point at the same
`ConnectionReference` cell. -/
def colocShared (st : PCState) : Prop :=
  ∀ pid e, assocFind pid st.connectionPlacementHash = Option.some e →
    ∀ k, e.colocatedEntry = Option.some k →
      ∃ ce, assocFind k st.colocatedPlacementsHash = Option.some ce ∧
        ce.primaryConnection = e.primaryConnection

/-! ## Association-list lemmas -/

theorem assocFind_assocSet_self {α β : Type} [DecidableEq α] (k : α) (v : β)
    (l : List (α × β)) : assocFind k (assocSet k v l) = Option.some v := by
  induction l with
  | nil => simp [assocFind, assocSet]
  | cons hd tl ih =>
    by_cases h : hd.1 = k
    · simp [assocFind, assocSet, h]
    · simpa [assocFind, assocSet, h] using ih

theorem assocFind_assocSet_ne {α β : Type} [DecidableEq α] {k k' : α} (v : β)
    (l : List (α × β)) (h : k' ≠ k) :
    assocFind k (assocSet k' v l) = assocFind k l := by
  induction l with
  | nil => simp [assocFind, assocSet, h]
  | cons hd tl ih =>
    by_cases h1 : hd.1 = k'
    · simp [assocFind, assocSet, h1, h]
    · by_cases h2 : hd.1 = k
      · simp [assocFind, assocSet, h1, h2, h.symm]
      · simpa [assocFind, assocSet, h1, h2] using ih

theorem assocFind_append_some {α β : Type} [DecidableEq α] {k : α} {v : β}
    {l : List (α × β)} (l2 : List (α × β)) (h : assocFind k l = Option.some v) :
    assocFind k (l ++ l2) = Option.some v := by
  induction l with
  | nil => simp [assocFind] at h
  | cons hd tl ih =>
    by_cases h1 : hd.1 = k
    · simpa [assocFind, h1] using (by simpa [assocFind, h1] using h)
    · exact by simpa [assocFind, h1] using ih (by simpa [assocFind, h1] using h)

theorem assocFind_append_none {α β : Type} [DecidableEq α] {k : α}
    {l : List (α × β)} (l2 : List (α × β)) (h : assocFind k l = Option.none) :
    assocFind k (l ++ l2) = assocFind k l2 := by
  induction l with
  | nil => simp
  | cons hd tl ih =>
    by_cases h1 : hd.1 = k
    · simp [assocFind, h1] at h
    · exact by simpa [assocFind, h1] using ih (by simpa [assocFind, h1] using h)

/-! ## Frame lemmas for the state accessors -/

theorem getRefD_setRef_self (st : PCState) (rid : Nat) (r : ConnectionReference) :
    getRefD (setRef st rid r) rid = r := by
  simp [getRefD, setRef, assocFind_assocSet_self]

theorem getRefD_setRef_ne (st : PCState) {rid rid' : Nat} (r : ConnectionReference)
    (h : rid' ≠ rid) : getRefD (setRef st rid' r) rid = getRefD st rid := by
  simp [getRefD, setRef, assocFind_assocSet_ne _ _ h]

theorem getEntryD_setEntry_self (st : PCState) (pid : Nat)
    (e : ConnectionPlacementHashEntry) : getEntryD (setEntry st pid e) pid = e := by
  simp [getEntryD, setEntry, assocFind_assocSet_self]

theorem getEntryD_setEntry_ne (st : PCState) {pid pid' : Nat}
    (e : ConnectionPlacementHashEntry) (h : pid' ≠ pid) :
    getEntryD (setEntry st pid' e) pid = getEntryD st pid := by
  simp [getEntryD, setEntry, assocFind_assocSet_ne _ _ h]

theorem getColocD_setColoc_self (st : PCState) (k : ColocatedPlacementsHashKey)
    (e : ColocatedPlacementsHashEntry) : getColocD (setColoc st k e) k = e := by
  simp [getColocD, setColoc, assocFind_assocSet_self]

theorem getColocD_setColoc_ne (st : PCState) {k k' : ColocatedPlacementsHashKey}
    (e : ColocatedPlacementsHashEntry) (h : k' ≠ k) :
    getColocD (setColoc st k' e) k = getColocD st k := by
  simp [getColocD, setColoc, assocFind_assocSet_ne _ _ h]

theorem getRefD_setEntry (st : PCState) (pid : Nat) (e : ConnectionPlacementHashEntry)
    (rid : Nat) : getRefD (setEntry st pid e) rid = getRefD st rid := rfl

theorem getRefD_setColoc (st : PCState) (k : ColocatedPlacementsHashKey)
    (e : ColocatedPlacementsHashEntry) (rid : Nat) :
    getRefD (setColoc st k e) rid = getRefD st rid := rfl

theorem getRefD_pushReferenced (st : PCState) (c rid rid' : Nat) :
    getRefD (pushReferenced st c rid') rid = getRefD st rid := rfl

theorem getEntryD_setRef (st : PCState) (rid : Nat) (r : ConnectionReference)
    (pid : Nat) : getEntryD (setRef st rid r) pid = getEntryD st pid := rfl

theorem getEntryD_setColoc (st : PCState) (k : ColocatedPlacementsHashKey)
    (e : ColocatedPlacementsHashEntry) (pid : Nat) :
    getEntryD (setColoc st k e) pid = getEntryD st pid := rfl

theorem getEntryD_pushReferenced (st : PCState) (c rid pid : Nat) :
    getEntryD (pushReferenced st c rid) pid = getEntryD st pid := rfl

theorem getColocD_setRef (st : PCState) (rid : Nat) (r : ConnectionReference)
    (k : ColocatedPlacementsHashKey) : getColocD (setRef st rid r) k = getColocD st k := rfl

theorem getColocD_setEntry (st : PCState) (pid : Nat) (e : ConnectionPlacementHashEntry)
    (k : ColocatedPlacementsHashKey) : getColocD (setEntry st pid e) k = getColocD st k := rfl

theorem getColocD_pushReferenced (st : PCState) (c rid : Nat)
    (k : ColocatedPlacementsHashKey) : getColocD (pushReferenced st c rid) k = getColocD st k := rfl

/-! ## AssociatePlacementWithShard frame lemmas -/

theorem AssociatePlacementWithShard_PI (a b : Nat) (st : PCState) :
    (AssociatePlacementWithShard a b st).connectionPlacementHash =
      st.connectionPlacementHash := by
  unfold AssociatePlacementWithShard
  split
  · rfl
  · split <;> rfl

theorem AssociatePlacementWithShard_refs (a b : Nat) (st : PCState) :
    (AssociatePlacementWithShard a b st).refs = st.refs := by
  unfold AssociatePlacementWithShard
  split
  · rfl
  · split <;> rfl

theorem AssociatePlacementWithShard_CI (a b : Nat) (st : PCState) :
    (AssociatePlacementWithShard a b st).colocatedPlacementsHash =
      st.colocatedPlacementsHash := by
  unfold AssociatePlacementWithShard
  split
  · rfl
  · split <;> rfl

theorem getRefD_Associate (a b : Nat) (st : PCState) (rid : Nat) :
    getRefD (AssociatePlacementWithShard a b st) rid = getRefD st rid := by
  simp [getRefD, AssociatePlacementWithShard_refs]

theorem getEntryD_Associate (a b : Nat) (st : PCState) (pid : Nat) :
    getEntryD (AssociatePlacementWithShard a b st) pid = getEntryD st pid := by
  simp [getEntryD, AssociatePlacementWithShard_PI]

theorem getColocD_Associate (a b : Nat) (st : PCState) (k : ColocatedPlacementsHashKey) :
    getColocD (AssociatePlacementWithShard a b st) k = getColocD st k := by
  simp [getColocD, AssociatePlacementWithShard_CI]

/-! ## State extension -/

theorem PCExt.rfl (st : PCState) : PCExt st st :=
  ⟨fun _ _ h => h, fun _ _ h => h, fun _ _ h => h⟩

theorem PCExt.trans {s1 s2 s3 : PCState} (h1 : PCExt s1 s2) (h2 : PCExt s2 s3) :
    PCExt s1 s3 :=
  ⟨fun p e h => h2.1 p e (h1.1 p e h), fun r x h => h2.2.1 r x (h1.2.1 r x h),
   fun k c h => h2.2.2 k c (h1.2.2 k c h)⟩

theorem PCExt_Associate (a b : Nat) (st : PCState) :
    PCExt st (AssociatePlacementWithShard a b st) := by
  refine ⟨fun p e h => ?_, fun r x h => ?_, fun k c h => ?_⟩
  · rw [AssociatePlacementWithShard_PI]; exact h
  · rw [AssociatePlacementWithShard_refs]; exact h
  · rw [AssociatePlacementWithShard_CI]; exact h

theorem FindOrCreate_found {p : ShardPlacement} {st : PCState}
    {e : ConnectionPlacementHashEntry}
    (h : assocFind p.placementId st.connectionPlacementHash = Option.some e) :
    FindOrCreatePlacementEntry p st =
      (e, AssociatePlacementWithShard p.placementId p.shardId st) := by
  unfold FindOrCreatePlacementEntry
  rw [h]

theorem PCExt_FindOrCreate (p : ShardPlacement) (st : PCState) :
    PCExt st (FindOrCreatePlacementEntry p st).2 := by
  rcases hf : assocFind p.placementId st.connectionPlacementHash with _ | e
  · by_cases hm : p.partitionMethod = PartitionMethod.byHash ∨
        p.partitionMethod = PartitionMethod.byNone
    · rcases hc : assocFind
          ({ nodeName := p.nodeName, nodePort := p.nodePort,
             colocationGroupId := p.colocationGroupId,
             representativeValue := p.representativeValue } : ColocatedPlacementsHashKey)
          st.colocatedPlacementsHash with _ | ce
      · simp only [FindOrCreatePlacementEntry, hf, if_pos hm, hc]
        refine PCExt.trans ?_ (PCExt_Associate _ _ _)
        exact ⟨fun q x h => assocFind_append_some _ h,
               fun r x h => assocFind_append_some _ h,
               fun k c h => assocFind_append_some _ h⟩
      · simp only [FindOrCreatePlacementEntry, hf, if_pos hm, hc]
        refine PCExt.trans ?_ (PCExt_Associate _ _ _)
        exact ⟨fun q x h => assocFind_append_some _ h,
               fun r x h => h, fun k c h => h⟩
    · simp only [FindOrCreatePlacementEntry, hf, if_neg hm]
      refine PCExt.trans ?_ (PCExt_Associate _ _ _)
      exact ⟨fun q x h => assocFind_append_some _ h,
             fun r x h => assocFind_append_some _ h,
             fun k c h => h⟩
  · rw [FindOrCreate_found hf]
    exact PCExt_Associate p.placementId p.shardId st

/-! ## Selection-pass lemmas -/

theorem selStep_ok_shape {env : PoolEnv} {flags : ConnFlags} {u : String}
    {pa : ShardPlacementAccess} {acc acc' : SelAcc}
    (h : selStep env flags u pa acc = SelResult.ok acc') :
    (pa.placement.shardId = INVALID_SHARD_ID ∧ acc' = acc) ∨
    (pa.placement.shardId ≠ INVALID_SHARD_ID ∧
      acc'.st = (FindOrCreatePlacementEntry pa.placement acc.st).2 ∧
      acc'.entryList = acc.entryList ++ [pa.placement.placementId]) := by
  simp only [selStep] at h
  split at h
  · rename_i hs
    injection h with h1
    exact Or.inl ⟨hs, h1.symm⟩
  · rename_i hs
    refine Or.inr ⟨hs, ?_⟩
    repeat' split at h
    all_goals first
      | exact SelResult.noConfusion h
      | (injection h with h1; subst h1; exact ⟨rfl, rfl⟩)

theorem selStep_frozen {env : PoolEnv} {flags : ConnFlags} {u : String}
    {pa : ShardPlacementAccess} {acc acc' : SelAcc}
    (h : selStep env flags u pa acc = SelResult.ok acc')
    (hm : acc.foundModifying = true) :
    acc'.chosen = acc.chosen ∧ acc'.foundModifying = true := by
  simp only [selStep] at h
  repeat' split at h
  all_goals first
    | exact SelResult.noConfusion h
    | (injection h with h1; subst h1; exact ⟨rfl, hm⟩)
    | exact absurd hm (by assumption)

theorem selStep_ext {env : PoolEnv} {flags : ConnFlags} {u : String}
    {pa : ShardPlacementAccess} {acc acc' : SelAcc}
    (h : selStep env flags u pa acc = SelResult.ok acc') : PCExt acc.st acc'.st := by
  rcases selStep_ok_shape h with ⟨_, rfl⟩ | ⟨_, hst, _⟩
  · exact PCExt.rfl _
  · rw [hst]
    exact PCExt_FindOrCreate _ _

theorem selectionPass_append (env : PoolEnv) (flags : ConnFlags) (u : String)
    (l1 l2 : List ShardPlacementAccess) (acc : SelAcc) :
    selectionPass env flags u (l1 ++ l2) acc =
      (match selectionPass env flags u l1 acc with
        | SelResult.ok a => selectionPass env flags u l2 a
        | SelResult.err e st => SelResult.err e st) := by
  induction l1 generalizing acc with
  | nil => simp [selectionPass]
  | cons pa rest ih =>
    simp only [List.cons_append, selectionPass]
    rcases hstep : selStep env flags u pa acc with a | ⟨e, st⟩
    · exact ih a
    · rfl

theorem selectionPass_frozen {env : PoolEnv} {flags : ConnFlags} {u : String}
    {l : List ShardPlacementAccess} {acc acc' : SelAcc}
    (h : selectionPass env flags u l acc = SelResult.ok acc')
    (hm : acc.foundModifying = true) :
    acc'.chosen = acc.chosen ∧ acc'.foundModifying = true := by
  induction l generalizing acc with
  | nil =>
    injection h with h1
    subst h1
    exact ⟨rfl, hm⟩
  | cons pa rest ih =>
    rcases hstep : selStep env flags u pa acc with a | ⟨e, st⟩
    · simp only [selectionPass, hstep] at h
      obtain ⟨h1, h2⟩ := selStep_frozen hstep hm
      obtain ⟨h3, h4⟩ := ih h h2
      exact ⟨h3.trans h1, h4⟩
    · simp [selectionPass, hstep] at h

theorem selectionPass_ext {env : PoolEnv} {flags : ConnFlags} {u : String}
    {l : List ShardPlacementAccess} {acc acc' : SelAcc}
    (h : selectionPass env flags u l acc = SelResult.ok acc') :
    PCExt acc.st acc'.st := by
  induction l generalizing acc with
  | nil =>
    injection h with h1
    subst h1
    exact PCExt.rfl _
  | cons pa rest ih =>
    rcases hstep : selStep env flags u pa acc with a | ⟨e, st⟩
    · simp only [selectionPass, hstep] at h
      exact PCExt.trans (selStep_ext hstep) (ih h)
    · simp [selectionPass, hstep] at h

theorem selectionPass_entryList_mem {env : PoolEnv} {flags : ConnFlags} {u : String}
    {l : List ShardPlacementAccess} {acc acc' : SelAcc}
    (h : selectionPass env flags u l acc = SelResult.ok acc') :
    ∀ pid ∈ acc'.entryList, pid ∈ acc.entryList ∨
      ∃ pa, pa ∈ l ∧ pa.placement.placementId = pid ∧
        pa.placement.shardId ≠ INVALID_SHARD_ID := by
  induction l generalizing acc with
  | nil =>
    injection h with h1
    subst h1
    exact fun pid hm => Or.inl hm
  | cons pa rest ih =>
    rcases hstep : selStep env flags u pa acc with a | ⟨e, st⟩
    · simp only [selectionPass, hstep] at h
      intro pid hm
      rcases ih h pid hm with hin | ⟨pb, hb1, hb2, hb3⟩
      · rcases selStep_ok_shape hstep with ⟨_, rfl⟩ | ⟨hs, _, hel⟩
        · exact Or.inl hin
        · rw [hel] at hin
          rcases List.mem_append.1 hin with hin1 | hin2
          · exact Or.inl hin1
          · exact Or.inr ⟨pa, List.mem_cons_self _ _,
              (List.mem_singleton.1 hin2).symm, hs⟩
      · exact Or.inr ⟨pb, List.mem_cons_of_mem _ hb1, hb2, hb3⟩
    · simp [selectionPass, hstep] at h

theorem selectionPass_entryList_len {env : PoolEnv} {flags : ConnFlags} {u : String}
    {l : List ShardPlacementAccess} {acc acc' : SelAcc}
    (h : selectionPass env flags u l acc = SelResult.ok acc') :
    acc'.entryList.length ≤ acc.entryList.length + l.length := by
  induction l generalizing acc with
  | nil =>
    injection h with h1
    subst h1
    simp
  | cons pa rest ih =>
    rcases hstep : selStep env flags u pa acc with a | ⟨e, st⟩
    · simp only [selectionPass, hstep] at h
      have h2 := ih h
      rcases selStep_ok_shape hstep with ⟨_, rfl⟩ | ⟨_, _, hel⟩
      · simp only [List.length_cons]
        omega
      · rw [hel] at h2
        simp only [List.length_append, List.length_cons, List.length_nil] at h2 ⊢
        omega
    · simp [selectionPass, hstep] at h

theorem selectionPass_entryList_nosent {env : PoolEnv} {flags : ConnFlags} {u : String}
    {l : List ShardPlacementAccess} {acc acc' : SelAcc}
    (hs : ∀ pa ∈ l, pa.placement.shardId ≠ INVALID_SHARD_ID)
    (h : selectionPass env flags u l acc = SelResult.ok acc') :
    acc'.entryList = acc.entryList ++ l.map (fun pa => pa.placement.placementId) := by
  induction l generalizing acc with
  | nil =>
    injection h with h1
    subst h1
    simp
  | cons pa rest ih =>
    rcases hstep : selStep env flags u pa acc with a | ⟨e, st⟩
    · simp only [selectionPass, hstep] at h
      rcases selStep_ok_shape hstep with ⟨hsent, rfl⟩ | ⟨_, _, hel⟩
      · exact absurd hsent (hs pa (List.mem_cons_self _ _))
      · have h2 := ih (fun pb hb => hs pb (List.mem_cons_of_mem _ hb)) h
        rw [h2, hel]
        simp
    · simp [selectionPass, hstep] at h

/-! ## Installation-pass lemmas -/

theorem getRefD_setRef_split (st : PCState) (rid : Nat) (r : ConnectionReference)
    (rid0 : Nat) :
    getRefD (setRef st rid r) rid0 = if rid0 = rid then r else getRefD st rid0 := by
  by_cases h : rid0 = rid
  · subst h
    simp [getRefD_setRef_self]
  · simp [h, getRefD_setRef_ne _ _ (Ne.symm h)]

theorem getEntryD_setEntry_split (st : PCState) (pid : Nat)
    (e : ConnectionPlacementHashEntry) (pid0 : Nat) :
    getEntryD (setEntry st pid e) pid0 = if pid0 = pid then e else getEntryD st pid0 := by
  by_cases h : pid0 = pid
  · subst h
    simp [getEntryD_setEntry_self]
  · simp [h, getEntryD_setEntry_ne _ _ (Ne.symm h)]

theorem getColocD_setColoc_split (st : PCState) (k : ColocatedPlacementsHashKey)
    (e : ColocatedPlacementsHashEntry) (k0 : ColocatedPlacementsHashKey) :
    getColocD (setColoc st k e) k0 = if k0 = k then e else getColocD st k0 := by
  by_cases h : k0 = k
  · subst h
    simp [getColocD_setColoc_self]
  · simp [h, getColocD_setColoc_ne _ _ (Ne.symm h)]

theorem installStep_conn (u : String) (c : Nat) (pr : ShardPlacementAccess × Nat)
    (st : PCState) (rid0 : Nat) :
    (getRefD (installStep u c pr st) rid0).connection = (getRefD st rid0).connection ∨
    (getRefD (installStep u c pr st) rid0).connection = Option.some c := by
  by_cases hr0 : rid0 = (getEntryD st pr.2).primaryConnection
  · subst hr0
    simp only [installStep]
    repeat' split
    all_goals simp_all [getRefD_setRef_split, getRefD_setEntry, getRefD_setColoc,
      getRefD_pushReferenced]
  · simp only [installStep]
    repeat' split
    all_goals simp_all [getRefD_setRef_split, getRefD_setEntry, getRefD_setColoc,
      getRefD_pushReferenced]

theorem installStep_keeps_conn {u : String} {c : Nat} {pr : ShardPlacementAccess × Nat}
    {st : PCState} {rid0 : Nat}
    (h : (getRefD st rid0).connection = Option.some c) :
    (getRefD (installStep u c pr st) rid0).connection = Option.some c := by
  rcases installStep_conn u c pr st rid0 with h1 | h1
  · rw [h1, h]
  · exact h1

theorem installStep_entry_primary (u : String) (c : Nat) (pr : ShardPlacementAccess × Nat)
    (st : PCState) (pid0 : Nat) :
    (getEntryD (installStep u c pr st) pid0).primaryConnection =
      (getEntryD st pid0).primaryConnection := by
  simp only [installStep]
  repeat' split
  all_goals simp_all [getEntryD_setEntry_split, getEntryD_setRef, getEntryD_setColoc,
    getEntryD_pushReferenced]
  all_goals repeat' split
  all_goals simp_all

theorem installStep_entry_coloc (u : String) (c : Nat) (pr : ShardPlacementAccess × Nat)
    (st : PCState) (pid0 : Nat) :
    (getEntryD (installStep u c pr st) pid0).colocatedEntry =
      (getEntryD st pid0).colocatedEntry := by
  simp only [installStep]
  repeat' split
  all_goals simp_all [getEntryD_setEntry_split, getEntryD_setRef, getEntryD_setColoc,
    getEntryD_pushReferenced]
  all_goals repeat' split
  all_goals simp_all

theorem installStep_hasSec_other {u : String} {c : Nat} {pr : ShardPlacementAccess × Nat}
    {st : PCState} {pid0 : Nat} (hne : pid0 ≠ pr.2) :
    (getEntryD (installStep u c pr st) pid0).hasSecondaryConnections =
      (getEntryD st pid0).hasSecondaryConnections := by
  simp only [installStep]
  repeat' split
  all_goals simp_all [getEntryD_setEntry_split, getEntryD_setRef, getEntryD_setColoc,
    getEntryD_pushReferenced]
  all_goals repeat' split
  all_goals simp_all

theorem installStep_hasSec_safe {u : String} {c : Nat} {pr : ShardPlacementAccess × Nat}
    {st : PCState}
    (hc : (getRefD st (getEntryD st pr.2).primaryConnection).connection = Option.none ∨
      (getRefD st (getEntryD st pr.2).primaryConnection).connection = Option.some c)
    (pid0 : Nat) :
    (getEntryD (installStep u c pr st) pid0).hasSecondaryConnections =
      (getEntryD st pid0).hasSecondaryConnections := by
  simp only [installStep]
  repeat' split
  all_goals simp_all [getEntryD_setEntry_split, getEntryD_setRef, getEntryD_setColoc,
    getEntryD_pushReferenced]
  all_goals repeat' split
  all_goals simp_all

theorem installStep_sets_nonselect {u : String} {c : Nat} {pr : ShardPlacementAccess × Nat}
    {st : PCState} (hk : pr.1.accessType ≠ ShardPlacementAccessType.select) :
    (getRefD (installStep u c pr st) (getEntryD st pr.2).primaryConnection).connection =
      Option.some c := by
  simp only [installStep]
  repeat' split
  all_goals simp_all [getRefD_setRef_split, getRefD_setEntry, getRefD_setColoc,
    getRefD_pushReferenced]
  all_goals repeat' split
  all_goals simp_all

theorem installPass_entry_primary (u : String) (c : Nat)
    (prs : List (ShardPlacementAccess × Nat)) (st : PCState) (pid0 : Nat) :
    (getEntryD (installPass u c prs st) pid0).primaryConnection =
      (getEntryD st pid0).primaryConnection := by
  induction prs generalizing st with
  | nil => rfl
  | cons pr rest ih =>
    simp only [installPass]
    rw [ih, installStep_entry_primary]

theorem installPass_entry_coloc (u : String) (c : Nat)
    (prs : List (ShardPlacementAccess × Nat)) (st : PCState) (pid0 : Nat) :
    (getEntryD (installPass u c prs st) pid0).colocatedEntry =
      (getEntryD st pid0).colocatedEntry := by
  induction prs generalizing st with
  | nil => rfl
  | cons pr rest ih =>
    simp only [installPass]
    rw [ih, installStep_entry_coloc]

theorem installPass_keeps_conn {u : String} {c : Nat}
    {prs : List (ShardPlacementAccess × Nat)} {st : PCState} {rid0 : Nat}
    (h : (getRefD st rid0).connection = Option.some c) :
    (getRefD (installPass u c prs st) rid0).connection = Option.some c := by
  induction prs generalizing st with
  | nil => exact h
  | cons pr rest ih =>
    simp only [installPass]
    exact ih (installStep_keeps_conn h)

theorem installPass_nonselect_sets {u : String} {c : Nat}
    {prs : List (ShardPlacementAccess × Nat)} {st : PCState}
    {pa : ShardPlacementAccess} {pid : Nat}
    (hmem : (pa, pid) ∈ prs) (hk : pa.accessType ≠ ShardPlacementAccessType.select) :
    (getRefD (installPass u c prs st) (getEntryD st pid).primaryConnection).connection =
      Option.some c := by
  induction prs generalizing st with
  | nil => exact absurd hmem (List.not_mem_nil _)
  | cons pr rest ih =>
    simp only [installPass]
    rcases List.mem_cons.1 hmem with heq | hmem2
    · subst heq
      exact installPass_keeps_conn (installStep_sets_nonselect hk)
    · have h2 : (getRefD (installPass u c rest (installStep u c pr st))
          (getEntryD (installStep u c pr st) pid).primaryConnection).connection =
          Option.some c := ih hmem2
      rw [installStep_entry_primary] at h2
      exact h2

theorem installPass_hasSec_untouched {u : String} {c : Nat}
    {prs : List (ShardPlacementAccess × Nat)} {st : PCState} {pid : Nat}
    (hout : pid ∉ prs.map Prod.snd) :
    (getEntryD (installPass u c prs st) pid).hasSecondaryConnections =
      (getEntryD st pid).hasSecondaryConnections := by
  induction prs generalizing st with
  | nil => rfl
  | cons pr rest ih =>
    simp only [List.map_cons, List.mem_cons] at hout
    push_neg at hout
    simp only [installPass]
    rw [ih (by simpa using hout.2), installStep_hasSec_other hout.1]

theorem installPass_no_new_secondary {u : String} {c : Nat}
    {prs : List (ShardPlacementAccess × Nat)} {st : PCState} {pid rid : Nat}
    (h1 : (getEntryD st pid).primaryConnection = rid)
    (h2 : (getEntryD st pid).hasSecondaryConnections = false)
    (h3 : (getRefD st rid).connection = Option.none ∨
      (getRefD st rid).connection = Option.some c) :
    (getEntryD (installPass u c prs st) pid).hasSecondaryConnections = false := by
  induction prs generalizing st with
  | nil => exact h2
  | cons pr rest ih =>
    simp only [installPass]
    have hconn : (getRefD (installStep u c pr st) rid).connection = Option.none ∨
        (getRefD (installStep u c pr st) rid).connection = Option.some c := by
      rcases installStep_conn u c pr st rid with hc | hc
      · rw [hc]
        exact h3
      · exact Or.inr hc
    refine ih ?_ ?_ hconn
    · rw [installStep_entry_primary, h1]
    · by_cases hp : pid = pr.2
      · subst hp
        rw [installStep_hasSec_safe (h1 ▸ h3), h2]
      · rw [installStep_hasSec_other hp, h2]

/-! ## Election of a prior writing connection -/

theorem getEntryD_of_assocFind {st : PCState} {pid : Nat}
    {e : ConnectionPlacementHashEntry}
    (h : assocFind pid st.connectionPlacementHash = Option.some e) :
    getEntryD st pid = e := by
  simp [getEntryD, h]

theorem getRefD_of_assocFind {st : PCState} {rid : Nat} {r : ConnectionReference}
    (h : assocFind rid st.refs = Option.some r) : getRefD st rid = r := by
  simp [getRefD, h]

theorem selStep_writing_elected {env : PoolEnv} {flags : ConnFlags} {u : String}
    {pa : ShardPlacementAccess} {acc a : SelAcc}
    (hstep : selStep env flags u pa acc = SelResult.ok a)
    (hsent : pa.placement.shardId ≠ INVALID_SHARD_ID)
    {e : ConnectionPlacementHashEntry}
    (he : assocFind pa.placement.placementId acc.st.connectionPlacementHash =
      Option.some e)
    {r : ConnectionReference}
    (hr : assocFind e.primaryConnection acc.st.refs = Option.some r)
    (hf : r.hadDDL = true ∨ r.hadDML = true)
    {cc : Nat} (hc : r.connection = Option.some cc) :
    a.chosen = Option.some cc ∧ a.foundModifying = true := by
  have hrr : getRefD acc.st e.primaryConnection = r := getRefD_of_assocFind hr
  simp only [selStep, if_neg hsent, FindOrCreate_found he, getRefD_Associate,
    getColocD_Associate, hrr, hc] at hstep
  split at hstep
  · exact SelResult.noConfusion hstep
  · split at hstep
    · exact SelResult.noConfusion hstep
    · split at hstep
      · rename_i hfm
        split at hstep
        · exact SelResult.noConfusion hstep
        · rename_i hcond
          injection hstep with h1
          subst h1
          refine ⟨?_, hfm⟩
          by_contra hne
          exact hcond ⟨hf, fun hcc => hne hcc.symm⟩
      · rename_i hfm
        split at hstep
        · injection hstep with h1
          subst h1
          refine ⟨rfl, ?_⟩
          rcases hf with h | h <;> simp [h]
        · split at hstep
          · exact SelResult.noConfusion hstep
          · split at hstep
            · exact SelResult.noConfusion hstep
            · split at hstep
              · exact SelResult.noConfusion hstep
              · rename_i h6 h7 h8
                rcases hf with h | h
                · exact absurd h h6
                · exact absurd h h7

theorem selectionPass_writing_elected {env : PoolEnv} {flags : ConnFlags} {u : String}
    {l : List ShardPlacementAccess} {acc acc' : SelAcc}
    (h : selectionPass env flags u l acc = SelResult.ok acc')
    {pa : ShardPlacementAccess} (hmem : pa ∈ l)
    (hsent : pa.placement.shardId ≠ INVALID_SHARD_ID)
    {e : ConnectionPlacementHashEntry}
    (he : assocFind pa.placement.placementId acc.st.connectionPlacementHash =
      Option.some e)
    {r : ConnectionReference}
    (hr : assocFind e.primaryConnection acc.st.refs = Option.some r)
    (hf : r.hadDDL = true ∨ r.hadDML = true)
    {cc : Nat} (hc : r.connection = Option.some cc) :
    acc'.chosen = Option.some cc ∧ acc'.foundModifying = true := by
  induction l generalizing acc with
  | nil => exact absurd hmem (List.not_mem_nil _)
  | cons pb rest ih =>
    rcases hstep : selStep env flags u pb acc with a | ⟨e2, st2⟩
    · simp only [selectionPass, hstep] at h
      rcases List.mem_cons.1 hmem with heq | hmem2
      · subst heq
        obtain ⟨h1, h2⟩ := selStep_writing_elected hstep hsent he hr hf hc
        obtain ⟨h3, h4⟩ := selectionPass_frozen h h2
        exact ⟨h3.trans h1, h4⟩
      · have hext := selStep_ext hstep
        exact ih h hmem2 (hext.1 _ _ he) (hext.2.1 _ _ hr)
    · simp [selectionPass, hstep] at h

/-! ## Counterexamples to claims as stated -/

/-- C1: counterexample.  A repeat SELECT on placementA while its assigned
connection 100 is claimed exclusively returns successfully with chosen
connection 101, yet the placement's primary ConnectionRef still holds
connection 100 — so a successful acquire does not give every non-sentinel
placement `primary.conn == chosen`. -/
theorem select_does_not_rebind_connection_cex :
    resultConn acquireSelectA2 = Option.some 101 ∧
    (getRefD (resultState acquireSelectA2)
      (getEntryD (resultState acquireSelectA2) placementA.placementId).primaryConnection).connection =
      Option.some 100 ∧
    Option.some 100 ≠ Option.some 101 := by
  decide

/-- C2: counterexample.  After DML on placementB over connection 200 and a
mid-transaction close of 200, the reference reads `conn = None` with
`hadDML = true`; the subsequent SELECT acquire nevertheless succeeds
(returning fresh connection 201) and resets the historical flags, instead
of failing via NewConnOverDml. -/
theorem closed_writing_connection_silently_replaced_cex :
    (getRefD stDmlBClosed (getEntryD stDmlBClosed placementB.placementId).primaryConnection) =
      { userName := "alice", connection := Option.none, hadDML := true, hadDDL := false } ∧
    resultErr acquireAfterClose = Option.none ∧
    resultConn acquireAfterClose = Option.some 201 ∧
    (getRefD (resultState acquireAfterClose)
      (getEntryD (resultState acquireAfterClose) placementB.placementId).primaryConnection) =
      { userName := "alice", connection := Option.some 201, hadDML := false, hadDDL := false } := by
  decide

/-- C3: counterexample.  Invariant I4 is violated by a reachable sequence of
successful acquires: after SELECT / claim / SELECT (setting
hasSecondaryConnections) a DML acquire on placementA succeeds and records
`hadDML = true` on the primary reference while `hasSecondaryConnections`
remains true. -/
theorem dml_on_secondary_read_breaks_invariant_cex :
    resultErr acquireDmlA3 = Option.none ∧
    (getEntryD (resultState acquireDmlA3) placementA.placementId).hasSecondaryConnections = true ∧
    (getRefD (resultState acquireDmlA3)
      (getEntryD (resultState acquireDmlA3) placementA.placementId).primaryConnection).hadDML =
      true := by
  decide

/-- C4: counterexample.  In the literal split-writes scenario (DML on
placementA over connection 300, 300 claimed exclusively, DML on placementB
over 301, then acquire of both SELECTs) the error raised is
NewConnOverDml for placementA — rule R7 fires on the unusable claimed
connection before rule R4 — not MultiConnectionWrite. -/
theorem split_writes_scenario_cex :
    resultErr acquireSplitClaimed =
      Option.some (PlacementConnErr.newConnOverDml placementA.placementId) ∧
    Option.some (PlacementConnErr.newConnOverDml placementA.placementId) ≠
      Option.some PlacementConnErr.multiConnectionWrite := by
  decide

/-- C5: counterexample.  The acquire `[(placementA, SELECT), (placementB,
DDL)]` from a state where placementB has `hasSecondaryConnections = true`
does fail with DdlOnSecondaryRead, but the failing call does not leave the
placement index unchanged: a fresh entry for the never-before-seen
placementA has been created by the selection pass before the error. -/
theorem ddl_on_secondary_error_not_atomic_cex :
    resultErr acquireDdlOnSecondary =
      Option.some (PlacementConnErr.ddlOnSecondaryRead placementB.placementId) ∧
    assocFind placementA.placementId stSecondaryB.connectionPlacementHash = Option.none ∧
    assocFind placementA.placementId
      (resultState acquireDdlOnSecondary).connectionPlacementHash ≠ Option.none := by
  decide

/-- C8: counterexample.  A leading sentinel access is not inert: with the
sentinel (DDL on node-z) first, the fresh connection is requested for the
sentinel's node (pool returns 500, not node-a's 400), and the installation
pass pairs the sentinel's DDL access kind with placementA's entry, recording
`hadDDL = true` — the outcome differs from the sentinel-free acquire. -/
theorem leading_sentinel_changes_outcome_cex :
    resultConn acquireSentinelFirst = Option.some 500 ∧
    resultConn acquireNoSentinel = Option.some 400 ∧
    (getRefD (resultState acquireSentinelFirst)
      (getEntryD (resultState acquireSentinelFirst) placementA.placementId).primaryConnection).hadDDL =
      true ∧
    (getRefD (resultState acquireNoSentinel)
      (getEntryD (resultState acquireNoSentinel) placementA.placementId).primaryConnection).hadDDL =
      false := by
  decide

/-! ## Claim theorems -/

theorem zip_self_map {A B : Type} (l : List A) (g : A → B) :
    l.zip (l.map g) = l.map (fun a => (a, g a)) := by
  induction l with
  | nil => rfl
  | cons a rest ih => simp [ih]

/-- C1: amended claim.  Provided no access in the list is an INVALID-shard
sentinel, after a successful acquire returning `chosen` every placement that
is accessed with a non-SELECT kind ends the call with its primary
ConnectionRef holding `chosen`.  (As stated the claim fails: a SELECT access
whose placement previously held a different, non-reusable connection keeps
the old connection, and sentinel accesses misalign the installation
pairing.) -/
theorem acquire_nonselect_gets_chosen {env : PoolEnv} {flags : ConnFlags}
    {l : List ShardPlacementAccess} {uOpt : Option String} {st : PCState}
    {c : Nat} {st' : PCState}
    (hns : ∀ pa ∈ l, pa.placement.shardId ≠ INVALID_SHARD_ID)
    (hacq : StartPlacementListConnection env flags l uOpt st = AcquireResult.ok c st')
    {pa : ShardPlacementAccess} (hmem : pa ∈ l)
    (hk : pa.accessType ≠ ShardPlacementAccessType.select) :
    (getRefD st' (getEntryD st' pa.placement.placementId).primaryConnection).connection =
      Option.some c := by
  unfold StartPlacementListConnection at hacq
  rcases hsel : selectionPass env flags (uOpt.getD env.currentUserName) l
      { chosen := Option.none, foundModifying := false, entryList := [], st := st }
    with acc | ⟨e2, st2⟩
  · simp only [hsel] at hacq
    injection hacq with h1 h2
    subst h2
    subst h1
    have hel : acc.entryList = l.map (fun pb => pb.placement.placementId) := by
      have h3 := selectionPass_entryList_nosent hns hsel
      simpa using h3
    have hpairs : l.zip acc.entryList =
        l.map (fun pb => (pb, pb.placement.placementId)) := by
      rw [hel, zip_self_map]
    have hmem2 : (pa, pa.placement.placementId) ∈ l.zip acc.entryList := by
      rw [hpairs]
      exact List.mem_map.2 ⟨pa, hmem, rfl⟩
    rw [installPass_entry_primary]
    exact installPass_nonselect_sets hmem2 hk
  · simp only [hsel] at hacq
    exact AcquireResult.noConfusion hacq

/-- C1: witness for the amended claim at a concrete input: the DML acquire
on placementA from the empty state returns connection 300 and leaves the
placement's primary reference on 300. -/
theorem acquire_nonselect_gets_chosen_witness :
    (getRefD (resultState acquireDmlA1)
      (getEntryD (resultState acquireDmlA1) placementA.placementId).primaryConnection).connection =
      Option.some 300 := by
  have hacq : StartPlacementListConnection (envPool [] 300) flagsDefault
      [{ placement := placementA, accessType := ShardPlacementAccessType.dml }]
      (Option.some "alice") emptyPCState =
      AcquireResult.ok 300 (resultState acquireDmlA1) := by decide
  have hmem : ({ placement := placementA, accessType := ShardPlacementAccessType.dml } : ShardPlacementAccess) ∈
      [{ placement := placementA, accessType := ShardPlacementAccessType.dml }] := by
    decide
  exact acquire_nonselect_gets_chosen (by decide) hacq hmem (by decide)

/-- C3: amended claim.  If a PlacementEntry's primary ConnectionRef already
recorded hadDDL or hadDML before an acquire, a successful acquire never
newly sets that entry's hasSecondaryConnections flag.  (Invariant I4 as
stated is false: a single acquire may set hasSecondaryConnections and record
a DML/DDL access on the same entry in its installation pass — see the
counterexample.) -/
theorem acquire_no_new_secondary_on_prior_writer {env : PoolEnv} {flags : ConnFlags}
    {l : List ShardPlacementAccess} {uOpt : Option String} {st : PCState}
    {c : Nat} {st' : PCState} {pid : Nat} {e : ConnectionPlacementHashEntry}
    {r : ConnectionReference}
    (hacq : StartPlacementListConnection env flags l uOpt st = AcquireResult.ok c st')
    (he : assocFind pid st.connectionPlacementHash = Option.some e)
    (hr : assocFind e.primaryConnection st.refs = Option.some r)
    (hf : r.hadDDL = true ∨ r.hadDML = true)
    (hs : e.hasSecondaryConnections = false) :
    (getEntryD st' pid).hasSecondaryConnections = false := by
  unfold StartPlacementListConnection at hacq
  rcases hsel : selectionPass env flags (uOpt.getD env.currentUserName) l
      { chosen := Option.none, foundModifying := false, entryList := [], st := st }
    with acc | ⟨e2, st2⟩
  · simp only [hsel] at hacq
    injection hacq with h1 h2
    subst h2
    have hext := selectionPass_ext hsel
    have he' : assocFind pid acc.st.connectionPlacementHash = Option.some e :=
      hext.1 _ _ he
    have hr' : assocFind e.primaryConnection acc.st.refs = Option.some r :=
      hext.2.1 _ _ hr
    have hee : getEntryD acc.st pid = e := getEntryD_of_assocFind he'
    by_cases hin : pid ∈ (l.zip acc.entryList).map Prod.snd
    · rcases List.mem_map.1 hin with ⟨pr, hpr, hpid⟩
      have hinE : pid ∈ acc.entryList := by
        rw [← hpid]
        exact (List.of_mem_zip hpr).2
      have h1' : (getEntryD acc.st pid).primaryConnection = e.primaryConnection := by
        rw [hee]
      have h2' : (getEntryD acc.st pid).hasSecondaryConnections = false := by
        rw [hee, hs]
      rcases selectionPass_entryList_mem hsel pid hinE with hnil | ⟨pa, hpa, hpaid, hpasent⟩
      · exact absurd hnil (List.not_mem_nil _)
      · rcases hconn : r.connection with _ | cc
        · exact installPass_no_new_secondary h1' h2'
            (Or.inl (by rw [getRefD_of_assocFind hr', hconn]))
        · have hel : acc.chosen = Option.some cc ∧ acc.foundModifying = true := by
            refine selectionPass_writing_elected hsel hpa hpasent ?_ hr hf hconn
            rw [hpaid]
            exact he
          exact installPass_no_new_secondary h1' h2'
            (Or.inr (by rw [getRefD_of_assocFind hr', hconn]; simp [hel.1]))
    · rw [installPass_hasSec_untouched hin, hee, hs]
  · simp only [hsel] at hacq
    exact AcquireResult.noConfusion hacq

/-- C3: witness for the amended claim at a concrete input: reacquiring
placementB (whose primary recorded hadDML on connection 200) with a SELECT
leaves hasSecondaryConnections false. -/
theorem acquire_no_new_secondary_on_prior_writer_witness :
    (getEntryD (resultState acquireReuseB) placementB.placementId).hasSecondaryConnections =
      false := by
  have hacq : StartPlacementListConnection (envPool [] 201) flagsDefault
      [{ placement := placementB, accessType := ShardPlacementAccessType.select }]
      (Option.some "alice") stDmlB = AcquireResult.ok 200 (resultState acquireReuseB) := by
    decide
  have he : assocFind placementB.placementId stDmlB.connectionPlacementHash =
      Option.some { failed := false, primaryConnection := 0, hasSecondaryConnections := false, colocatedEntry := Option.none } := by decide
  have hr : assocFind 0 stDmlB.refs =
      Option.some { userName := "alice", connection := Option.some 200, hadDML := true, hadDDL := false } := by decide
  exact acquire_no_new_secondary_on_prior_writer hacq he hr (Or.inr (by decide)) (by decide)

/-- C9: once the selection pass has elected a prior writing connection
(foundModifying is set with candidate `c`), no later access reassigns the
candidate: a successful acquire over any extension of the list returns
exactly `c`. -/
theorem found_modifying_freezes_chosen {env : PoolEnv} {flags : ConnFlags}
    {l1 l2 : List ShardPlacementAccess} {uOpt : Option String} {st : PCState}
    {acc : SelAcc} {c conn : Nat} {st' : PCState}
    (hsel : selectionPass env flags (uOpt.getD env.currentUserName) l1
      { chosen := Option.none, foundModifying := false, entryList := [], st := st } =
      SelResult.ok acc)
    (hfm : acc.foundModifying = true) (hch : acc.chosen = Option.some c)
    (hacq : StartPlacementListConnection env flags (l1 ++ l2) uOpt st =
      AcquireResult.ok conn st') :
    conn = c := by
  simp only [StartPlacementListConnection] at hacq
  rw [selectionPass_append] at hacq
  simp only [hsel] at hacq
  rcases hsel2 : selectionPass env flags (uOpt.getD env.currentUserName) l2 acc
    with acc2 | ⟨e2, st2⟩
  · simp only [hsel2] at hacq
    obtain ⟨h3, h4⟩ := selectionPass_frozen hsel2 hfm
    injection hacq with h1 h2
    rw [← h1]
    simp [h3, hch]
  · simp only [hsel2] at hacq
    exact AcquireResult.noConfusion hacq

/-- C9: witness at a concrete input: after DML on placementB over
connection 200, the selection prefix `[(placementB, SELECT)]` elects 200
with foundModifying set, and extending the list with a SELECT on the
never-accessed placementA still returns exactly 200. -/
theorem found_modifying_freezes_chosen_witness :
    (selAccOf (selectionPass (envPool [] 201) flagsDefault "alice"
      [{ placement := placementB, accessType := ShardPlacementAccessType.select }]
      { chosen := Option.none, foundModifying := false, entryList := [],
        st := stDmlB })).foundModifying = true ∧
    (200 : Nat) = 200 := by
  have hsel : selectionPass (envPool [] 201) flagsDefault
      ((Option.some "alice").getD (envPool [] 201).currentUserName)
      [{ placement := placementB, accessType := ShardPlacementAccessType.select }]
      { chosen := Option.none, foundModifying := false, entryList := [],
        st := stDmlB } =
      SelResult.ok (selAccOf (selectionPass (envPool [] 201) flagsDefault "alice"
        [{ placement := placementB, accessType := ShardPlacementAccessType.select }]
        { chosen := Option.none, foundModifying := false, entryList := [],
          st := stDmlB })) := by decide
  have hacq : StartPlacementListConnection (envPool [] 201) flagsDefault
      ([{ placement := placementB, accessType := ShardPlacementAccessType.select }] ++
        [{ placement := placementA, accessType := ShardPlacementAccessType.select }])
      (Option.some "alice") stDmlB =
      AcquireResult.ok 200 (resultState (StartPlacementListConnection (envPool [] 201)
        flagsDefault
        ([{ placement := placementB, accessType := ShardPlacementAccessType.select }] ++
          [{ placement := placementA, accessType := ShardPlacementAccessType.select }])
        (Option.some "alice") stDmlB)) := by decide
  exact ⟨by decide, found_modifying_freezes_chosen hsel (by decide) (by decide) hacq⟩


/-- C2: amended claim.  A ConnectionRef whose connection was closed
mid-transaction reads `conn = None`, so a subsequent acquire touching the
placement matches rule R1 (`no connection has been chosen`), succeeds, and
silently installs the newly chosen connection, resetting hadDDL/hadDML to
false — it does not fail via NewConnOverDdl/NewConnOverDml as claimed
(those rules are unreachable because R1 fires first on `conn == NULL`). -/
theorem closed_ref_rebound {env : PoolEnv} {flags : ConnFlags} {st : PCState}
    {p : ShardPlacement} {uOpt : Option String} {k : ShardPlacementAccessType}
    {e : ConnectionPlacementHashEntry}
    (hsent : p.shardId ≠ INVALID_SHARD_ID)
    (he : assocFind p.placementId st.connectionPlacementHash = Option.some e)
    (hcn : (getRefD st e.primaryConnection).connection = Option.none) :
    resultErr (StartPlacementListConnection env flags
      [{ placement := p, accessType := k }] uOpt st) = Option.none ∧
    resultConn (StartPlacementListConnection env flags
      [{ placement := p, accessType := k }] uOpt st) =
      Option.some (env.startNodeConnection flags p.nodeName p.nodePort) ∧
    getRefD (resultState (StartPlacementListConnection env flags
      [{ placement := p, accessType := k }] uOpt st)) e.primaryConnection =
      { userName := uOpt.getD env.currentUserName,
        connection := Option.some (env.startNodeConnection flags p.nodeName p.nodePort),
        hadDML := decide (k = ShardPlacementAccessType.dml),
        hadDDL := decide (k = ShardPlacementAccessType.ddl) } := by
  have hstep : selStep env flags (uOpt.getD env.currentUserName)
      { placement := p, accessType := k }
      { chosen := Option.none, foundModifying := false, entryList := [], st := st } =
      SelResult.ok { chosen := Option.none, foundModifying := false,
                     entryList := [p.placementId],
                     st := AssociatePlacementWithShard p.placementId p.shardId st } := by
    simp [selStep, if_neg hsent, FindOrCreate_found he, getRefD_Associate, hcn]
  have hsel : selectionPass env flags (uOpt.getD env.currentUserName)
      [{ placement := p, accessType := k }]
      { chosen := Option.none, foundModifying := false, entryList := [], st := st } =
      SelResult.ok { chosen := Option.none, foundModifying := false,
                     entryList := [p.placementId],
                     st := AssociatePlacementWithShard p.placementId p.shardId st } := by
    simp [selectionPass, hstep]
  have hee : getEntryD (AssociatePlacementWithShard p.placementId p.shardId st)
      p.placementId = e := by
    rw [getEntryD_Associate]
    exact getEntryD_of_assocFind he
  have hcn2 : (getRefD (AssociatePlacementWithShard p.placementId p.shardId st)
      e.primaryConnection).connection = Option.none := by
    rw [getRefD_Associate]
    exact hcn
  simp only [StartPlacementListConnection, hsel]
  cases k <;>
    simp_all [installPass, installStep, hee, hcn2, resultErr, resultConn, resultState,
      getRefD_setRef_split, getRefD_setEntry, getRefD_setColoc, getRefD_pushReferenced,
      getEntryD_setRef, getEntryD_pushReferenced]

/-- C2: witness for the amended claim at a concrete input: reacquiring the
closed-connection placementB with SELECT succeeds on fresh connection 201
and leaves its reference rebound with cleared flags. -/
theorem closed_ref_rebound_witness :
    resultErr acquireAfterClose = Option.none ∧
    resultConn acquireAfterClose = Option.some 201 ∧
    getRefD (resultState acquireAfterClose) 0 =
      { userName := "alice", connection := Option.some 201, hadDML := false, hadDDL := false } := by
  have he : assocFind placementB.placementId stDmlBClosed.connectionPlacementHash =
      Option.some { failed := false, primaryConnection := 0, hasSecondaryConnections := false, colocatedEntry := Option.none } := by
    decide
  exact closed_ref_rebound (by decide) he (by decide)


/-- C4: amended claim.  If two placements in the input have prior writing
connections on two different connections and the first one's connection is
reusable (open, unclaimed, same user, no FORCE_NEW_CONNECTION), acquire
fails with MultiConnectionWrite.  (In the literal scenario of the claim,
connection C1 is still claimed exclusively, so rule R7 fires first on the
unusable DML connection and the error is NewConnOverDml instead — see the
counterexample; releasing C1 yields MultiConnectionWrite.) -/
theorem split_reusable_writes_multiConnectionWrite {env : PoolEnv} {flags : ConnFlags}
    {st : PCState} {p1 p2 : ShardPlacement} {uOpt : Option String}
    {e1 e2 : ConnectionPlacementHashEntry} {r1 r2 : ConnectionReference} {c1 c2 : Nat}
    (hs1 : p1.shardId ≠ INVALID_SHARD_ID) (hs2 : p2.shardId ≠ INVALID_SHARD_ID)
    (he1 : assocFind p1.placementId st.connectionPlacementHash = Option.some e1)
    (hr1 : assocFind e1.primaryConnection st.refs = Option.some r1)
    (hc1 : r1.connection = Option.some c1)
    (hf1 : r1.hadDDL = true ∨ r1.hadDML = true)
    (hcl : c1 ∉ env.claimedExclusively)
    (hforce : flags.forceNewConnection = false)
    (huser : r1.userName = uOpt.getD env.currentUserName)
    (he2 : assocFind p2.placementId st.connectionPlacementHash = Option.some e2)
    (hr2 : assocFind e2.primaryConnection st.refs = Option.some r2)
    (hc2 : r2.connection = Option.some c2)
    (hf2 : r2.hadDDL = true ∨ r2.hadDML = true)
    (hne : c2 ≠ c1) :
    resultErr (StartPlacementListConnection env flags
      [{ placement := p1, accessType := ShardPlacementAccessType.select },
       { placement := p2, accessType := ShardPlacementAccessType.select }] uOpt st) =
      Option.some PlacementConnErr.multiConnectionWrite := by
  have hv1 : (r1.hadDDL || r1.hadDML) = true := by
    rcases hf1 with h | h <;> simp [h]
  have hrr1 : getRefD st e1.primaryConnection = r1 := getRefD_of_assocFind hr1
  have hstep1 : selStep env flags (uOpt.getD env.currentUserName)
      { placement := p1, accessType := ShardPlacementAccessType.select }
      { chosen := Option.none, foundModifying := false, entryList := [], st := st } =
      SelResult.ok { chosen := Option.some c1, foundModifying := true,
                     entryList := [p1.placementId],
                     st := AssociatePlacementWithShard p1.placementId p1.shardId st } := by
    simp [selStep, if_neg hs1, FindOrCreate_found he1, getRefD_Associate, hrr1, hc1,
      CanUseExistingConnection, hcl, hforce, huser, hv1]
  have he2' : assocFind p2.placementId
      (AssociatePlacementWithShard p1.placementId p1.shardId st).connectionPlacementHash =
      Option.some e2 := by
    rw [AssociatePlacementWithShard_PI]
    exact he2
  have hrr2 : getRefD (AssociatePlacementWithShard p1.placementId p1.shardId st)
      e2.primaryConnection = r2 := by
    rw [getRefD_Associate]
    exact getRefD_of_assocFind hr2
  have hv2 : r2.hadDDL = true ∨ r2.hadDML = true := hf2
  have hstep2 : selStep env flags (uOpt.getD env.currentUserName)
      { placement := p2, accessType := ShardPlacementAccessType.select }
      { chosen := Option.some c1, foundModifying := true,
        entryList := [p1.placementId],
        st := AssociatePlacementWithShard p1.placementId p1.shardId st } =
      SelResult.err PlacementConnErr.multiConnectionWrite
        (AssociatePlacementWithShard p2.placementId p2.shardId
          (AssociatePlacementWithShard p1.placementId p1.shardId st)) := by
    simp [selStep, if_neg hs2, FindOrCreate_found he2', getRefD_Associate, hrr2, hc2, hne]
    rcases hf2 with h | h <;> simp [h]
  simp [StartPlacementListConnection, selectionPass, hstep1, hstep2, resultErr]

/-- C4: witness for the amended claim at a concrete input: with connection
300 released, the acquire of both SELECTs over the split-written placements
fails with MultiConnectionWrite. -/
theorem split_reusable_writes_multiConnectionWrite_witness :
    resultErr acquireSplitReleased = Option.some PlacementConnErr.multiConnectionWrite := by
  have he1 : assocFind placementA.placementId stSplitWrites.connectionPlacementHash =
      Option.some { failed := false, primaryConnection := 0, hasSecondaryConnections := false, colocatedEntry := Option.none } := by
    decide
  have hr1 : assocFind 0 stSplitWrites.refs =
      Option.some { userName := "alice", connection := Option.some 300, hadDML := true, hadDDL := false } := by
    decide
  have he2 : assocFind placementB.placementId stSplitWrites.connectionPlacementHash =
      Option.some { failed := false, primaryConnection := 1, hasSecondaryConnections := false, colocatedEntry := Option.none } := by
    decide
  have hr2 : assocFind 1 stSplitWrites.refs =
      Option.some { userName := "alice", connection := Option.some 301, hadDML := true, hadDDL := false } := by
    decide
  have hc1 : ({ userName := "alice", connection := Option.some 300, hadDML := true, hadDDL := false } : ConnectionReference).connection = Option.some 300 := rfl
  have hc2 : ({ userName := "alice", connection := Option.some 301, hadDML := true, hadDDL := false } : ConnectionReference).connection = Option.some 301 := rfl
  have hcl : (300 : Nat) ∉ (envPool [] 302).claimedExclusively := by decide
  have hne : (301 : Nat) ≠ 300 := by decide
  exact split_reusable_writes_multiConnectionWrite (by decide) (by decide) he1 hr1
    hc1 (Or.inr (by decide)) hcl (by decide) (by decide) he2 hr2
    hc2 (Or.inr (by decide)) hne


/-- C5: amended claim.  A DDL access on a placement whose entry has
hasSecondaryConnections = true (respectively whose colocated entry does)
and whose primary connection is non-None fails with DdlOnSecondaryRead
(respectively DdlOnColocatedSecondaryRead) when it is the sole access, and
the failing call leaves every *existing* PI and CI entry unchanged — but
the original atomicity claim fails: fresh default entries are created for
placements seen for the first time in the failing call (see the
counterexample), and when the primary connection is None rule R1 preempts
the check entirely. -/
theorem ddl_on_secondary_errors_preserving_indices {env : PoolEnv} {flags : ConnFlags}
    {st : PCState} {p : ShardPlacement} {uOpt : Option String}
    {e : ConnectionPlacementHashEntry} {c : Nat}
    (hsent : p.shardId ≠ INVALID_SHARD_ID)
    (he : assocFind p.placementId st.connectionPlacementHash = Option.some e)
    (hcn : (getRefD st e.primaryConnection).connection = Option.some c) :
    (e.hasSecondaryConnections = true →
      resultErr (StartPlacementListConnection env flags
        [{ placement := p, accessType := ShardPlacementAccessType.ddl }] uOpt st) =
        Option.some (PlacementConnErr.ddlOnSecondaryRead p.placementId) ∧
      (resultState (StartPlacementListConnection env flags
        [{ placement := p, accessType := ShardPlacementAccessType.ddl }] uOpt st)).connectionPlacementHash =
        st.connectionPlacementHash ∧
      (resultState (StartPlacementListConnection env flags
        [{ placement := p, accessType := ShardPlacementAccessType.ddl }] uOpt st)).colocatedPlacementsHash =
        st.colocatedPlacementsHash) ∧
    (∀ k, e.hasSecondaryConnections = false → e.colocatedEntry = Option.some k →
      (getColocD st k).hasSecondaryConnections = true →
      resultErr (StartPlacementListConnection env flags
        [{ placement := p, accessType := ShardPlacementAccessType.ddl }] uOpt st) =
        Option.some (PlacementConnErr.ddlOnColocatedSecondaryRead p.placementId) ∧
      (resultState (StartPlacementListConnection env flags
        [{ placement := p, accessType := ShardPlacementAccessType.ddl }] uOpt st)).connectionPlacementHash =
        st.connectionPlacementHash ∧
      (resultState (StartPlacementListConnection env flags
        [{ placement := p, accessType := ShardPlacementAccessType.ddl }] uOpt st)).colocatedPlacementsHash =
        st.colocatedPlacementsHash) := by
  constructor
  · intro hsec
    have hstep : selStep env flags (uOpt.getD env.currentUserName)
        { placement := p, accessType := ShardPlacementAccessType.ddl }
        { chosen := Option.none, foundModifying := false, entryList := [], st := st } =
        SelResult.err (PlacementConnErr.ddlOnSecondaryRead p.placementId)
          (AssociatePlacementWithShard p.placementId p.shardId st) := by
      simp [selStep, if_neg hsent, FindOrCreate_found he, getRefD_Associate, hcn, hsec]
    simp [StartPlacementListConnection, selectionPass, hstep, resultErr, resultState,
      AssociatePlacementWithShard_PI, AssociatePlacementWithShard_CI]
  · intro k hsec hk hck
    have hstep : selStep env flags (uOpt.getD env.currentUserName)
        { placement := p, accessType := ShardPlacementAccessType.ddl }
        { chosen := Option.none, foundModifying := false, entryList := [], st := st } =
        SelResult.err (PlacementConnErr.ddlOnColocatedSecondaryRead p.placementId)
          (AssociatePlacementWithShard p.placementId p.shardId st) := by
      simp [selStep, if_neg hsent, FindOrCreate_found he, getRefD_Associate,
        getColocD_Associate, hcn, hsec, hk, hck]
    simp [StartPlacementListConnection, selectionPass, hstep, resultErr, resultState,
      AssociatePlacementWithShard_PI, AssociatePlacementWithShard_CI]

/-- C5: witness for the amended claim at a concrete input: the sole-DDL
acquire on the twice-read placementB fails with DdlOnSecondaryRead and
leaves the placement index unchanged. -/
theorem ddl_on_secondary_errors_preserving_indices_witness :
    resultErr acquireDdlOnlyB =
      Option.some (PlacementConnErr.ddlOnSecondaryRead placementB.placementId) ∧
    (resultState acquireDdlOnlyB).connectionPlacementHash =
      stSecondaryB.connectionPlacementHash := by
  have he : assocFind placementB.placementId stSecondaryB.connectionPlacementHash =
      Option.some { failed := false, primaryConnection := 0, hasSecondaryConnections := true, colocatedEntry := Option.none } := by
    decide
  have hcn : (getRefD stSecondaryB
      (({ failed := false, primaryConnection := 0, hasSecondaryConnections := true, colocatedEntry := Option.none } : ConnectionPlacementHashEntry)).primaryConnection).connection =
      Option.some 600 := by
    decide
  exact ⟨((ddl_on_secondary_errors_preserving_indices (by decide) he hcn).1 rfl).1,
    ((ddl_on_secondary_errors_preserving_indices (by decide) he hcn).1 rfl).2.1⟩


theorem zip_append_left {A B : Type} {l2 : List B} (l1 l3 : List A)
    (h : l2.length ≤ l1.length) : (l1 ++ l3).zip l2 = l1.zip l2 := by
  induction l1 generalizing l2 with
  | nil =>
    rcases l2 with _ | ⟨b, r2⟩
    · simp
    · simp at h
  | cons a r ih =>
    rcases l2 with _ | ⟨b, r2⟩
    · simp
    · simp only [List.cons_append, List.zip_cons_cons]
      rw [ih (by simpa using h)]

theorem selectionPass_sentinels {env : PoolEnv} {flags : ConnFlags} {u : String}
    (sents : List ShardPlacementAccess) (acc : SelAcc) :
    (∀ pa ∈ sents, pa.placement.shardId = INVALID_SHARD_ID) →
    selectionPass env flags u sents acc = SelResult.ok acc := by
  induction sents with
  | nil =>
    intro _
    rfl
  | cons pa rest ih =>
    intro hs
    have hstep : selStep env flags u pa acc = SelResult.ok acc := by
      simp [selStep, hs pa (List.mem_cons_self _ _)]
    simp only [selectionPass, hstep]
    exact ih (fun pb hb => hs pb (List.mem_cons_of_mem _ hb))

/-- C8: amended claim.  Sentinel accesses (INVALID shardId) are skipped by
the selection pass and create no entries, and when they occur only after
every other access they contribute nothing: the acquire has exactly the
same result and state as on the sentinel-free list.  (As stated the claim
fails: the entry list built by the selection pass omits sentinels while the
installation pass pairs it positionally with the full access list, so a
sentinel occurring before a real access misaligns access kinds with
entries, and a leading sentinel also supplies the node for a fresh
connection — see the counterexample.) -/
theorem trailing_sentinels_contribute_nothing {env : PoolEnv} {flags : ConnFlags}
    {uOpt : Option String} {st : PCState} {real sents : List ShardPlacementAccess}
    (hs : ∀ pa ∈ sents, pa.placement.shardId = INVALID_SHARD_ID)
    (hr : real ≠ []) :
    StartPlacementListConnection env flags (real ++ sents) uOpt st =
      StartPlacementListConnection env flags real uOpt st := by
  rcases real with _ | ⟨pa0, rest⟩
  · exact absurd rfl hr
  · simp only [StartPlacementListConnection]
    rw [selectionPass_append]
    rcases hsel : selectionPass env flags (uOpt.getD env.currentUserName) (pa0 :: rest)
        { chosen := Option.none, foundModifying := false, entryList := [], st := st }
      with acc | ⟨e, st2⟩
    · have hlen : acc.entryList.length ≤ (pa0 :: rest).length := by
        have h2 := selectionPass_entryList_len hsel
        simpa using h2
      simp [selectionPass_sentinels sents acc hs]
      rw [show (pa0 :: (rest ++ sents)).zip acc.entryList =
          (pa0 :: rest).zip acc.entryList from by
        have h3 := zip_append_left (pa0 :: rest) sents hlen
        simpa using h3]
    · simp

/-- C8: witness for the amended claim at a concrete input: appending a
sentinel DDL access after the SELECT on placementA leaves the acquire
result unchanged. -/
theorem trailing_sentinels_contribute_nothing_witness :
    StartPlacementListConnection envNodeSensitive flagsDefault
      ([{ placement := placementA, accessType := ShardPlacementAccessType.select }] ++
        [{ placement := sentinelPlacement, accessType := ShardPlacementAccessType.ddl }])
      (Option.some "alice") emptyPCState =
    StartPlacementListConnection envNodeSensitive flagsDefault
      [{ placement := placementA, accessType := ShardPlacementAccessType.select }]
      (Option.some "alice") emptyPCState :=
  trailing_sentinels_contribute_nothing (by decide) (by decide)


theorem assocFind_assocSet_cases {α β : Type} [DecidableEq α] {k k1 : α} {v : β}
    {l : List (α × β)} {x : β} (h : assocFind k (assocSet k1 v l) = Option.some x) :
    (k = k1 ∧ x = v) ∨ (k ≠ k1 ∧ assocFind k l = Option.some x) := by
  by_cases hk : k = k1
  · subst hk
    rw [assocFind_assocSet_self] at h
    exact Or.inl ⟨rfl, (Option.some_inj.1 h).symm⟩
  · rw [assocFind_assocSet_ne _ _ (Ne.symm hk)] at h
    exact Or.inr ⟨hk, h⟩

theorem assocFind_append_single {α β : Type} [DecidableEq α] {k k1 : α} {v v1 : β}
    {l : List (α × β)} (h : assocFind k (l ++ [(k1, v1)]) = Option.some v) :
    assocFind k l = Option.some v ∨
      (assocFind k l = Option.none ∧ k1 = k ∧ v1 = v) := by
  rcases hl : assocFind k l with _ | v0
  · rw [assocFind_append_none _ hl] at h
    by_cases hk : k1 = k
    · simp [assocFind, hk] at h
      exact Or.inr ⟨rfl, hk, h⟩
    · simp [assocFind, hk] at h
  · rw [assocFind_append_some _ hl] at h
    exact Or.inl h

theorem colocShared_Associate {a b : Nat} {st : PCState} (h : colocShared st) :
    colocShared (AssociatePlacementWithShard a b st) := by
  intro pid e he k hk
  rw [AssociatePlacementWithShard_PI] at he
  rw [AssociatePlacementWithShard_CI]
  exact h pid e he k hk

theorem colocShared_FindOrCreate (p : ShardPlacement) {st : PCState}
    (h : colocShared st) : colocShared (FindOrCreatePlacementEntry p st).2 := by
  rcases hf : assocFind p.placementId st.connectionPlacementHash with _ | e
  · by_cases hm : p.partitionMethod = PartitionMethod.byHash ∨
        p.partitionMethod = PartitionMethod.byNone
    · rcases hc : assocFind
          ({ nodeName := p.nodeName, nodePort := p.nodePort,
             colocationGroupId := p.colocationGroupId,
             representativeValue := p.representativeValue } : ColocatedPlacementsHashKey)
          st.colocatedPlacementsHash with _ | ce
      · simp only [FindOrCreatePlacementEntry, hf, if_pos hm, hc]
        apply colocShared_Associate
        intro pid e0 he0 k hk
        rcases assocFind_append_single he0 with hold | ⟨_, _, hval⟩
        · obtain ⟨ce0, hce0, hprim⟩ := h pid e0 hold k hk
          exact ⟨ce0, assocFind_append_some _ hce0, hprim⟩
        · subst hval
          simp only at hk
          injection hk with hk1
          subst hk1
          refine ⟨{ primaryConnection := st.nextRef, hasSecondaryConnections := false },
            ?_, rfl⟩
          rw [assocFind_append_none _ hc]
          simp [assocFind]
      · simp only [FindOrCreatePlacementEntry, hf, if_pos hm, hc]
        apply colocShared_Associate
        intro pid e0 he0 k hk
        rcases assocFind_append_single he0 with hold | ⟨_, _, hval⟩
        · exact h pid e0 hold k hk
        · subst hval
          simp only at hk
          injection hk with hk1
          subst hk1
          exact ⟨ce, hc, rfl⟩
    · simp only [FindOrCreatePlacementEntry, hf, if_neg hm]
      apply colocShared_Associate
      intro pid e0 he0 k hk
      rcases assocFind_append_single he0 with hold | ⟨_, _, hval⟩
      · exact h pid e0 hold k hk
      · subst hval
        simp at hk
  · rw [FindOrCreate_found hf]
    exact colocShared_Associate h


theorem selStep_err_shape {env : PoolEnv} {flags : ConnFlags} {u : String}
    {pa : ShardPlacementAccess} {acc : SelAcc} {e : PlacementConnErr} {st' : PCState}
    (h : selStep env flags u pa acc = SelResult.err e st') :
    st' = (FindOrCreatePlacementEntry pa.placement acc.st).2 := by
  simp only [selStep] at h
  split at h
  · exact SelResult.noConfusion h
  · repeat' split at h
    all_goals first
      | exact SelResult.noConfusion h
      | (injection h with h1 h2; exact h2.symm)

theorem colocShared_setEntry_hasSec (st : PCState) (pid : Nat) (b : Bool)
    (h : colocShared st) :
    colocShared (setEntry st pid
      { getEntryD st pid with hasSecondaryConnections := b }) := by
  intro pid0 e0 he0 k0 hk0
  simp only [setEntry] at he0
  rcases assocFind_assocSet_cases he0 with ⟨hpid, hval⟩ | ⟨hne, hold⟩
  · subst hpid
    subst hval
    simp only at hk0
    rcases hg : assocFind pid0 st.connectionPlacementHash with _ | e1
    · rw [getEntryD, hg] at hk0
      simp at hk0
    · rw [getEntryD, hg] at hk0
      simp only [Option.getD_some] at hk0
      obtain ⟨ce, hce, hprim⟩ := h pid0 e1 hg k0 hk0
      refine ⟨ce, hce, ?_⟩
      rw [hprim, getEntryD, hg]
      rfl
  · exact h pid0 e0 hold k0 hk0

theorem colocShared_setColoc_hasSec (st : PCState) (k : ColocatedPlacementsHashKey)
    (b : Bool) (h : colocShared st) :
    colocShared (setColoc st k
      { getColocD st k with hasSecondaryConnections := b }) := by
  intro pid0 e0 he0 k0 hk0
  obtain ⟨ce, hce, hprim⟩ := h pid0 e0 he0 k0 hk0
  simp only [setColoc]
  by_cases hk : k0 = k
  · subst hk
    refine ⟨{ getColocD st k0 with hasSecondaryConnections := b },
      assocFind_assocSet_self _ _ _, ?_⟩
    simp only
    rw [getColocD, hce]
    simpa using hprim
  · exact ⟨ce, by rw [assocFind_assocSet_ne _ _ (Ne.symm hk)]; exact hce, hprim⟩

theorem colocShared_installStep {u : String} {c : Nat} {pr : ShardPlacementAccess × Nat}
    {st : PCState} (h : colocShared st) : colocShared (installStep u c pr st) := by
  simp only [installStep]
  repeat' split
  all_goals first
    | exact h
    | exact colocShared_setEntry_hasSec _ _ _ h
    | exact colocShared_setColoc_hasSec _ _ _ (colocShared_setEntry_hasSec _ _ _ h)

theorem colocShared_installPass {u : String} {c : Nat}
    {prs : List (ShardPlacementAccess × Nat)} {st : PCState}
    (h : colocShared st) : colocShared (installPass u c prs st) := by
  induction prs generalizing st with
  | nil => exact h
  | cons pr rest ih =>
    simp only [installPass]
    exact ih (colocShared_installStep h)

theorem colocShared_selectionPass {env : PoolEnv} {flags : ConnFlags} {u : String}
    {l : List ShardPlacementAccess} {acc acc' : SelAcc}
    (h : selectionPass env flags u l acc = SelResult.ok acc')
    (hc : colocShared acc.st) : colocShared acc'.st := by
  induction l generalizing acc with
  | nil =>
    injection h with h1
    subst h1
    exact hc
  | cons pa rest ih =>
    rcases hstep : selStep env flags u pa acc with a | ⟨e, st2⟩
    · simp only [selectionPass, hstep] at h
      refine ih h ?_
      rcases selStep_ok_shape hstep with ⟨_, rfl⟩ | ⟨_, hst, _⟩
      · exact hc
      · rw [hst]
        exact colocShared_FindOrCreate _ hc
    · simp [selectionPass, hstep] at h

theorem colocShared_selectionPass_err {env : PoolEnv} {flags : ConnFlags} {u : String}
    {l : List ShardPlacementAccess} {acc : SelAcc} {e : PlacementConnErr} {st' : PCState}
    (h : selectionPass env flags u l acc = SelResult.err e st')
    (hc : colocShared acc.st) : colocShared st' := by
  induction l generalizing acc with
  | nil => simp [selectionPass] at h
  | cons pa rest ih =>
    rcases hstep : selStep env flags u pa acc with a | ⟨e2, st2⟩
    · simp only [selectionPass, hstep] at h
      refine ih h ?_
      rcases selStep_ok_shape hstep with ⟨_, rfl⟩ | ⟨_, hst, _⟩
      · exact hc
      · rw [hst]
        exact colocShared_FindOrCreate _ hc
    · simp only [selectionPass, hstep] at h
      injection h with h1 h2
      subst h2
      rw [selStep_err_shape hstep]
      exact colocShared_FindOrCreate _ hc


/-- C6: the shared-reference invariant I2: for a placement whose partition
method is HASH or NONE, `find_or_create_placement_entry` installs in the
PlacementEntry exactly the colocated entry's ConnectionReference cell (the
same reference id into the single store, so a mutation through either index
is seen through the other), and the invariant that every colocated
PlacementEntry stores its ColocatedEntry's reference is preserved both by
`find_or_create_placement_entry` and by every acquire, successful or
failing. -/
theorem placement_coloc_share_primary_connection (env : PoolEnv) (flags : ConnFlags)
    (l : List ShardPlacementAccess) (uOpt : Option String) {st : PCState}
    (p : ShardPlacement) (hc : colocShared st) :
    colocShared (resultState (StartPlacementListConnection env flags l uOpt st)) ∧
    colocShared (FindOrCreatePlacementEntry p st).2 ∧
    ((p.partitionMethod = PartitionMethod.byHash ∨
        p.partitionMethod = PartitionMethod.byNone) →
      assocFind p.placementId st.connectionPlacementHash = Option.none →
      ∃ k, (FindOrCreatePlacementEntry p st).1.colocatedEntry = Option.some k ∧
        ∃ ce, assocFind k (FindOrCreatePlacementEntry p st).2.colocatedPlacementsHash =
            Option.some ce ∧
          ce.primaryConnection = (FindOrCreatePlacementEntry p st).1.primaryConnection) := by
  refine ⟨?_, colocShared_FindOrCreate p hc, ?_⟩
  · unfold StartPlacementListConnection
    rcases hsel : selectionPass env flags (uOpt.getD env.currentUserName) l
        { chosen := Option.none, foundModifying := false, entryList := [], st := st }
      with acc | ⟨e2, st2⟩
    · simp only [hsel, resultState]
      exact colocShared_installPass (colocShared_selectionPass hsel hc)
    · simp only [hsel, resultState]
      exact colocShared_selectionPass_err hsel hc
  · intro hm hf
    rcases hcc : assocFind
        ({ nodeName := p.nodeName, nodePort := p.nodePort,
           colocationGroupId := p.colocationGroupId,
           representativeValue := p.representativeValue } : ColocatedPlacementsHashKey)
        st.colocatedPlacementsHash with _ | ce
    · simp only [FindOrCreatePlacementEntry, hf, if_pos hm, hcc]
      refine ⟨_, rfl, { primaryConnection := st.nextRef, hasSecondaryConnections := false },
        ?_, rfl⟩
      rw [AssociatePlacementWithShard_CI]
      rw [assocFind_append_none _ hcc]
      simp [assocFind]
    · simp only [FindOrCreatePlacementEntry, hf, if_pos hm, hcc]
      refine ⟨_, rfl, ce, ?_, rfl⟩
      rw [AssociatePlacementWithShard_CI]
      exact hcc

/-- C6: witness at a concrete input: creating the entry for the
hash-partitioned placementH1 in the empty state installs the colocated
entry's reference, and the invariant holds after the SELECT acquire. -/
theorem placement_coloc_share_primary_connection_witness :
    colocShared (resultState acquireHash1) ∧
    (∃ k, (FindOrCreatePlacementEntry placementH1 emptyPCState).1.colocatedEntry =
        Option.some k ∧
      ∃ ce, assocFind k
          (FindOrCreatePlacementEntry placementH1 emptyPCState).2.colocatedPlacementsHash =
          Option.some ce ∧
        ce.primaryConnection =
          (FindOrCreatePlacementEntry placementH1 emptyPCState).1.primaryConnection) := by
  have hcE : colocShared emptyPCState := by
    intro pid e he k hk
    simp [emptyPCState, assocFind] at he
  have H := placement_coloc_share_primary_connection (envPool [] 700) flagsDefault
    [{ placement := placementH1, accessType := ShardPlacementAccessType.select }]
    (Option.some "alice") placementH1 hcE
  exact ⟨H.1, H.2.2 (Or.inl rfl) rfl⟩


theorem classification_setEntry_failed (st : PCState) (pid pid0 : Nat) :
    isModifiedPlacement (setEntry st pid
      { getEntryD st pid with failed := true }) pid0 =
      isModifiedPlacement st pid0 ∧
    (∀ env, isFailedConnection env (setEntry st pid
      { getEntryD st pid with failed := true }) pid0 =
      isFailedConnection env st pid0) := by
  by_cases h : pid0 = pid
  · subst h
    constructor
    · simp [isModifiedPlacement, getEntryD_setEntry_self, getRefD_setEntry]
    · intro env
      simp [isFailedConnection, getEntryD_setEntry_self, getRefD_setEntry]
  · constructor
    · simp [isModifiedPlacement, getEntryD_setEntry_ne _ _ (Ne.symm h), getRefD_setEntry]
    · intro env
      simp [isFailedConnection, getEntryD_setEntry_ne _ _ (Ne.symm h), getRefD_setEntry]

theorem checkLoop1_spec (env : PoolEnv) (pids : List Nat) :
    ∀ (st : PCState) (f s : Nat),
    (checkLoop1 env pids st f s).1 =
      f + (pids.filter (fun pid => isModifiedPlacement st pid &&
        isFailedConnection env st pid)).length ∧
    (checkLoop1 env pids st f s).2.1 =
      s + (pids.filter (fun pid => isModifiedPlacement st pid &&
        !isFailedConnection env st pid)).length ∧
    (∀ pid0, getEntryD (checkLoop1 env pids st f s).2.2 pid0 =
      (if pid0 ∈ pids ∧ (isModifiedPlacement st pid0 &&
          isFailedConnection env st pid0) = true then
        { getEntryD st pid0 with failed := true }
      else getEntryD st pid0)) ∧
    (checkLoop1 env pids st f s).2.2.refs = st.refs ∧
    (checkLoop1 env pids st f s).2.2.connectionShardHash = st.connectionShardHash := by
  induction pids with
  | nil =>
    intro st f s
    refine ⟨by simp [checkLoop1], by simp [checkLoop1], ?_, rfl, rfl⟩
    intro pid0
    simp [checkLoop1]
  | cons pid rest ih =>
    intro st f s
    by_cases hM : isModifiedPlacement st pid = true
    · have hM2 : (getRefD st (getEntryD st pid).primaryConnection).hadDDL = true ∨
          (getRefD st (getEntryD st pid).primaryConnection).hadDML = true := by
        simpa [isModifiedPlacement] using hM
      by_cases hF : isFailedConnection env st pid = true
      · have hrec : checkLoop1 env (pid :: rest) st f s =
            checkLoop1 env rest
              (setEntry st pid { getEntryD st pid with failed := true }) (f + 1) s := by
          simp only [checkLoop1, if_pos hM2]
          rcases hconn : (getRefD st (getEntryD st pid).primaryConnection).connection
            with _ | c
          · rfl
          · have hc : c ∈ env.transactionFailed := by
              by_contra hc
              simp [isFailedConnection, hconn, hc] at hF
            simp [hc]
        obtain ⟨ih1, ih2, ih3, ih4, ih5⟩ :=
          ih (setEntry st pid { getEntryD st pid with failed := true }) (f + 1) s
        have hcong : ∀ x ∈ rest,
            (isModifiedPlacement (setEntry st pid
                { getEntryD st pid with failed := true }) x &&
              isFailedConnection env (setEntry st pid
                { getEntryD st pid with failed := true }) x) =
            (isModifiedPlacement st x && isFailedConnection env st x) := by
          intro x _
          rw [(classification_setEntry_failed st pid x).1,
            (classification_setEntry_failed st pid x).2 env]
        have hcong2 : ∀ x ∈ rest,
            (isModifiedPlacement (setEntry st pid
                { getEntryD st pid with failed := true }) x &&
              !isFailedConnection env (setEntry st pid
                { getEntryD st pid with failed := true }) x) =
            (isModifiedPlacement st x && !isFailedConnection env st x) := by
          intro x _
          rw [(classification_setEntry_failed st pid x).1,
            (classification_setEntry_failed st pid x).2 env]
        refine ⟨?_, ?_, ?_, ?_, ?_⟩
        · rw [hrec, ih1, List.filter_congr hcong]
          simp [List.filter_cons, hM, hF]
          omega
        · rw [hrec, ih2, List.filter_congr hcong2]
          simp [List.filter_cons, hM, hF]
        · intro pid0
          rw [hrec, ih3 pid0]
          by_cases hp : pid0 = pid
          · subst hp
            simp only [List.mem_cons, true_or, true_and, hM, hF,
              Bool.and_self, if_pos (Or.inl rfl)]
            rw [(classification_setEntry_failed st pid0 pid0).1,
              (classification_setEntry_failed st pid0 pid0).2 env]
            simp [hM, hF, getEntryD_setEntry_self]
          · rw [(classification_setEntry_failed st pid pid0).1,
              (classification_setEntry_failed st pid pid0).2 env]
            rw [getEntryD_setEntry_ne _ _ (Ne.symm hp)]
            by_cases hmem : pid0 ∈ rest
            · simp [hmem, hp]
            · simp [hmem, hp]
        · rw [hrec, ih4]
          rfl
        · rw [hrec, ih5]
          rfl
      · have hconn2 : ∃ c, (getRefD st (getEntryD st pid).primaryConnection).connection =
            Option.some c ∧ c ∉ env.transactionFailed := by
          rcases hconn : (getRefD st (getEntryD st pid).primaryConnection).connection
            with _ | c
          · exact absurd (by simp [isFailedConnection, hconn]) hF
          · refine ⟨c, rfl, ?_⟩
            by_contra hc
            exact hF (by simp [isFailedConnection, hconn, hc])
        obtain ⟨c, hconn, hc⟩ := hconn2
        have hrec : checkLoop1 env (pid :: rest) st f s =
            checkLoop1 env rest st f (s + 1) := by
          simp only [checkLoop1, if_pos hM2, hconn]
          simp [hc]
        obtain ⟨ih1, ih2, ih3, ih4, ih5⟩ := ih st f (s + 1)
        have hFf : isFailedConnection env st pid = false := by
          simpa using hF
        refine ⟨?_, ?_, ?_, ?_, ?_⟩
        · rw [hrec, ih1]
          simp [List.filter_cons, hM, hFf]
        · rw [hrec, ih2]
          simp [List.filter_cons, hM, hFf]
          omega
        · intro pid0
          rw [hrec, ih3 pid0]
          by_cases hp : pid0 = pid
          · subst hp
            simp [hM, hFf]
          · by_cases hmem : pid0 ∈ rest
            · simp [hmem, hp]
            · simp [hmem, hp]
        · rw [hrec, ih4]
        · rw [hrec, ih5]
    · have hM2 : ¬((getRefD st (getEntryD st pid).primaryConnection).hadDDL = true ∨
          (getRefD st (getEntryD st pid).primaryConnection).hadDML = true) := by
        intro hcon
        exact hM (by simpa [isModifiedPlacement] using hcon)
      have hMf : isModifiedPlacement st pid = false := by
        simpa using hM
      have hrec : checkLoop1 env (pid :: rest) st f s = checkLoop1 env rest st f s := by
        simp only [checkLoop1, if_neg hM2]
      obtain ⟨ih1, ih2, ih3, ih4, ih5⟩ := ih st f s
      refine ⟨?_, ?_, ?_, ?_, ?_⟩
      · rw [hrec, ih1]
        simp [List.filter_cons, hMf]
      · rw [hrec, ih2]
        simp [List.filter_cons, hMf]
      · intro pid0
        rw [hrec, ih3 pid0]
        by_cases hp : pid0 = pid
        · subst hp
          simp [hMf]
        · by_cases hmem : pid0 ∈ rest
          · simp [hmem, hp]
          · simp [hmem, hp]
      · rw [hrec, ih4]
      · rw [hrec, ih5]


theorem checkLoop2_spec (catalog : Nat → Nat → ShardState) (shardId : Nat)
    (pids : List Nat) (st : PCState) :
    checkLoop2 catalog shardId pids st =
      (pids.filter (fun pid => (getEntryD st pid).failed &&
        decide (catalog shardId pid = ShardState.fileFinalized))).map
        (fun pid => (pid, ShardState.fileInactive)) := by
  induction pids with
  | nil => rfl
  | cons pid rest ih =>
    by_cases hfl : (getEntryD st pid).failed = true
    · by_cases hcat : catalog shardId pid = ShardState.fileFinalized
      · simp [checkLoop2, hfl, hcat, List.filter_cons, ih]
      · simp [checkLoop2, hfl, hcat, List.filter_cons, ih]
    · simp [checkLoop2, hfl, List.filter_cons, ih]

/-- C7: the commit-time per-shard check: only placements whose primary
recorded hadDDL or hadDML are inspected; such a placement is classified a
failure exactly when its connection is None or its remote transaction
failed (the entry's failed flag records exactly this classification); when
the check passes (no failure or at least one success), the catalog updates
are exactly a FINALIZED→INACTIVE transition for each failed placement whose
catalog state is FILE_FINALIZED, and no other transition is attempted; a
failing check performs no update. -/
theorem checkShardPlacements_classification {env : PoolEnv}
    {catalog : Nat → Nat → ShardState} {shardId : Nat} {st : PCState}
    {pids : List Nat} {ok : Bool} {st' : PCState} {acts : List (Nat × ShardState)}
    (hsi : assocFind shardId st.connectionShardHash = Option.some pids)
    (hpre : ∀ pid ∈ pids, (getEntryD st pid).failed = false)
    (hrun : CheckShardPlacements env catalog shardId st = (ok, st', acts)) :
    (ok = true ↔
      ((pids.filter (fun pid => isModifiedPlacement st pid &&
          isFailedConnection env st pid)).length = 0 ∨
        0 < (pids.filter (fun pid => isModifiedPlacement st pid &&
          !isFailedConnection env st pid)).length)) ∧
    (∀ pid ∈ pids, (getEntryD st' pid).failed =
      (isModifiedPlacement st pid && isFailedConnection env st pid)) ∧
    (ok = true → acts =
      (pids.filter (fun pid => isModifiedPlacement st pid &&
        isFailedConnection env st pid &&
        decide (catalog shardId pid = ShardState.fileFinalized))).map
        (fun pid => (pid, ShardState.fileInactive))) ∧
    (ok = false → acts = []) := by
  obtain ⟨h1, h2, h3, h4, h5⟩ := checkLoop1_spec env pids st 0 0
  have hfailed : ∀ pid ∈ pids,
      (getEntryD (checkLoop1 env pids st 0 0).2.2 pid).failed =
        (isModifiedPlacement st pid && isFailedConnection env st pid) := by
    intro pid hp
    rw [h3 pid]
    by_cases hx : (isModifiedPlacement st pid && isFailedConnection env st pid) = true
    · rw [if_pos ⟨hp, hx⟩]
      simp [hx]
    · rw [if_neg (by simp [hx])]
      rw [hpre pid hp]
      have hx2 : (isModifiedPlacement st pid && isFailedConnection env st pid) = false := by
        revert hx
        cases (isModifiedPlacement st pid && isFailedConnection env st pid) <;> simp
      rw [hx2]
  simp only [CheckShardPlacements, hsi, Option.getD_some] at hrun
  by_cases hcase : (checkLoop1 env pids st 0 0).1 > 0 ∧
      (checkLoop1 env pids st 0 0).2.1 = 0
  · rw [if_pos hcase] at hrun
    injection hrun with hok hrest
    injection hrest with hst hacts
    subst hok
    subst hst
    subst hacts
    refine ⟨?_, hfailed, by intro hcon; exact absurd hcon.symm (by simp), fun _ => rfl⟩
    rw [h1, h2] at hcase
    constructor
    · intro hcon
      exact absurd hcon.symm (by simp)
    · intro hcon
      omega
  · rw [if_neg hcase] at hrun
    injection hrun with hok hrest
    injection hrest with hst hacts
    subst hok
    subst hst
    subst hacts
    refine ⟨?_, hfailed, ?_, by intro hcon; exact absurd hcon (by simp)⟩
    · rw [h1, h2] at hcase
      simp only [true_iff]
      omega
    · intro _
      rw [checkLoop2_spec]
      have hflt : ∀ pid ∈ pids,
          ((getEntryD (checkLoop1 env pids st 0 0).2.2 pid).failed &&
            decide (catalog shardId pid = ShardState.fileFinalized)) =
          (isModifiedPlacement st pid && isFailedConnection env st pid &&
            decide (catalog shardId pid = ShardState.fileFinalized)) := by
        intro pid hp
        rw [hfailed pid hp]
      rw [List.filter_congr hflt]


theorem checkLoop1_readonly (env : PoolEnv) (pids : List Nat) :
    ∀ (st : PCState) (f s : Nat),
    (∀ pid ∈ pids, isModifiedPlacement st pid = false) →
    checkLoop1 env pids st f s = (f, s, st) := by
  induction pids with
  | nil =>
    intro st f s _
    rfl
  | cons pid rest ih =>
    intro st f s h
    have hM2 : ¬((getRefD st (getEntryD st pid).primaryConnection).hadDDL = true ∨
        (getRefD st (getEntryD st pid).primaryConnection).hadDML = true) := by
      intro hcon
      have h2 := h pid (List.mem_cons_self _ _)
      rcases hcon with hc | hc <;> simp [isModifiedPlacement, hc] at h2
    simp only [checkLoop1, if_neg hM2]
    exact ih st f s (fun x hx => h x (List.mem_cons_of_mem _ hx))

theorem checkShard_readonly (env : PoolEnv) (catalog : Nat → Nat → ShardState)
    (sid : Nat) {st : PCState}
    (h : ∀ pid ∈ (assocFind sid st.connectionShardHash).getD [],
      isModifiedPlacement st pid = false) :
    CheckShardPlacements env catalog sid st =
      (true, st,
        checkLoop2 catalog sid ((assocFind sid st.connectionShardHash).getD []) st) := by
  simp only [CheckShardPlacements,
    checkLoop1_readonly env ((assocFind sid st.connectionShardHash).getD []) st 0 0 h]
  simp

theorem postLoop_readonly (env : PoolEnv) (catalog : Nat → Nat → ShardState)
    (using2PC : Bool) (shards : List (Nat × List Nat)) :
    ∀ (st : PCState) (a s : Nat) (acts : List (Nat × ShardState)) (warns : List Nat),
    (∀ sid pids, assocFind sid st.connectionShardHash = Option.some pids →
      ∀ pid ∈ pids, isModifiedPlacement st pid = false) →
    (s = 0 → a = 0) →
    ∃ acts2, postLoop env catalog using2PC shards st a s acts warns =
      Except.ok { st := st, actions := acts2, warnings := warns } := by
  induction shards with
  | nil =>
    intro st a s acts warns hro hinv
    refine ⟨acts, ?_⟩
    simp only [postLoop]
    rw [if_neg ?hng]
    case hng =>
      intro hcon
      have ha := hinv hcon.2
      omega
  | cons sh rest ih =>
    intro st a s acts warns hro hinv
    rcases sh with ⟨sid, pl⟩
    have hpids : ∀ pid ∈ (assocFind sid st.connectionShardHash).getD [],
        isModifiedPlacement st pid = false := by
      rcases hsi : assocFind sid st.connectionShardHash with _ | pids2
      · simp
      · simpa using hro sid pids2 hsi
    have hre := checkShard_readonly env catalog sid hpids
    simp only [postLoop, hre]
    exact ih st (a + 1) (s + 1) _ warns hro (by omega)

/-- C10: a shard none of whose placements recorded hadDDL or hadDML is
always classified a success by the per-shard check, and consequently
`PostCommitMarkFailedShardPlacements` on a transaction in which every
touched shard was only read returns without raising the aggregate
`could not commit transaction on any active node` error and without any
per-shard warning, even though every shard is examined and counted. -/
theorem read_only_shards_commit_without_error (env : PoolEnv)
    (catalog : Nat → Nat → ShardState) (using2PC : Bool) {st : PCState}
    (hro : ∀ sid pids, assocFind sid st.connectionShardHash = Option.some pids →
      ∀ pid ∈ pids, isModifiedPlacement st pid = false) :
    (∀ sid, (CheckShardPlacements env catalog sid st).1 = true) ∧
    ∃ acts, PostCommitMarkFailedShardPlacements env catalog using2PC st =
      Except.ok { st := st, actions := acts, warnings := [] } := by
  constructor
  · intro sid
    have hpids : ∀ pid ∈ (assocFind sid st.connectionShardHash).getD [],
        isModifiedPlacement st pid = false := by
      rcases hsi : assocFind sid st.connectionShardHash with _ | pids2
      · simp
      · simpa using hro sid pids2 hsi
    rw [checkShard_readonly env catalog sid hpids]
  · exact postLoop_readonly env catalog using2PC st.connectionShardHash st 0 0 [] []
      hro (fun _ => rfl)

/-- C7: witness at a concrete input: with connection 200 marked failed, the
modified placementB of shard 20 is classified as failed by the check. -/
theorem checkShardPlacements_classification_witness :
    (getEntryD ((CheckShardPlacements envFail catalogAllFinal 20 stDmlB).2.1) 2).failed =
      (isModifiedPlacement stDmlB 2 && isFailedConnection envFail stDmlB 2) ∧
    (isModifiedPlacement stDmlB 2 && isFailedConnection envFail stDmlB 2) = true := by
  have hsi : assocFind 20 stDmlB.connectionShardHash = Option.some [2] := by decide
  have hpre : ∀ pid ∈ [2], (getEntryD stDmlB pid).failed = false := by decide
  have hrun : CheckShardPlacements envFail catalogAllFinal 20 stDmlB =
      (false, (CheckShardPlacements envFail catalogAllFinal 20 stDmlB).2.1, []) := by
    decide
  exact ⟨(checkShardPlacements_classification hsi hpre hrun).2.1 2 (by decide), by decide⟩

/-- C10: witness at a concrete input: after only a SELECT on placementA,
shard 10 is classified a success and the post-commit walk returns cleanly
with no warnings. -/
theorem read_only_shards_commit_without_error_witness :
    (CheckShardPlacements (envPool [] 0) catalogAllFinal 10 stSelectA).1 = true ∧
    ∃ acts, PostCommitMarkFailedShardPlacements (envPool [] 0) catalogAllFinal true
        stSelectA =
      Except.ok { st := stSelectA, actions := acts, warnings := [] } := by
  have hro : ∀ sid pids, assocFind sid stSelectA.connectionShardHash = Option.some pids →
      ∀ pid ∈ pids, isModifiedPlacement stSelectA pid = false := by
    intro sid pids h pid hp
    have hsi : stSelectA.connectionShardHash = [(10, [1])] := by decide
    rw [hsi] at h
    simp only [assocFind] at h
    by_cases h10 : (10 : Nat) = sid
    · rw [if_pos h10] at h
      injection h with h1
      subst h1
      have hp1 : pid = 1 := List.mem_singleton.1 hp
      subst hp1
      decide
    · rw [if_neg h10] at h
      exact Option.noConfusion h
  have H := read_only_shards_commit_without_error (envPool [] 0) catalogAllFinal true hro
  exact ⟨H.1 10, H.2⟩

end PlacementConnection
